import Mathlib

/-!
Verification of the REST transport wrapper (`c8y_api/_base_api.py`,
class `CumulocityRestApi`) of the cumulocity-python-api repository.

The Python code is shallowly embedded: JSON documents become the
inductive type `Json` (objects are ordered association lists, matching
CPython dicts, which preserve insertion order), Python dict operations
become association-list operations with dict semantics, exceptions
become the `PyError` sum, and each verb operation becomes a pure
function from its arguments plus the HTTP response to an `Outcome`
explaining whether a request was sent and what the call returned or
raised.
-/

/-- JSON documents.  Objects are ordered association lists: a CPython
`dict` preserves insertion order, so the embedding keeps the key order
of the wire payload.  Numbers are modelled as integers (the payloads in
this development are integral; floats are outside the model). -/
inductive Json where
  | null : Json
  | bool (b : Bool) : Json
  | num (n : Int) : Json
  | str (s : String) : Json
  | arr (xs : List Json) : Json
  | obj (kvs : List (String × Json)) : Json

/-- `isinstance(x, dict)` for an embedded JSON value. -/
def Json.isObj : Json → Bool
  | .obj _ => true
  | _ => false

/-- Python truthiness of a JSON value (`if body:`): empty containers,
empty strings, zero, `False` and `None` are falsy. -/
def Json.truthy : Json → Bool
  | .null => false
  | .bool b => b
  | .num n => n != 0
  | .str s => s != ""
  | .arr xs => !xs.isEmpty
  | .obj kvs => !kvs.isEmpty

/-- String-valued Python dictionaries (headers), as ordered association
lists with CPython dict semantics. -/
abbrev Headers := List (String × String)

/-- `d[key]` lookup returning `none` when absent. -/
def dictGet : Headers → String → Option String
  | [], _ => none
  | (k, v) :: rest, key => if k = key then some v else dictGet rest key

/-- `d[key] = val`: overwrite in place when the key exists (keeping its
position, as CPython does), append otherwise. -/
def dictSet : Headers → String → String → Headers
  | [], key, val => [(key, val)]
  | (k, v) :: rest, key, val =>
    if k = key then (k, val) :: rest else (k, v) :: dictSet rest key val

/-- `d.update(other)`: apply `dictSet` for each entry of `other` in
order. -/
def dictUpdate (d : Headers) (other : Headers) : Headers :=
  other.foldl (fun acc kv => dictSet acc kv.1 kv.2) d

/-- Python truthiness of an optional string argument (`None` and the
empty string are falsy). -/
def optTruthy : Option String → Bool
  | none => false
  | some s => s != ""

/-- The exceptions the wrapper can raise, by kind and message. -/
inductive PyError where
  | keyError (msg : String) : PyError
  | syntaxError (msg : String) : PyError
  | valueError (msg : String) : PyError
  | valueErrorArgs (msg : String) (status : Nat) (text : String) : PyError
  | assertionError : PyError
  | nameError (msg : String) : PyError
  | indexError (msg : String) : PyError
  | jsonDecodeError : PyError
deriving DecidableEq

namespace CumulocityRestApiDefs

/-- Python's `key.split('_')` over the characters of the key: splitting
an empty string gives one empty segment, and each underscore separates
two (possibly empty) segments. -/
def splitUnd : List Char → List (List Char)
  | [] => [[]]
  | c :: cs =>
    if c = '_' then [] :: splitUnd cs
    else
      match splitUnd cs with
      | [] => [[c]]
      | p :: ps => (c :: p) :: ps

/-- One segment of `format_key`: Python's
`part[0].upper() + part[1:].lower()`.  Indexing `part[0]` on an empty
segment raises `IndexError('string index out of range')`. -/
def formatPart (part : List Char) : Except PyError (List Char) :=
  match part with
  | [] => Except.error (PyError.indexError "string index out of range")
  | c :: rest => Except.ok (c.toUpper :: rest.map Char.toLower)

/-- `'-'.join(...)`. -/
def joinHyphen : List (List Char) → List Char
  | [] => []
  | p :: ps =>
    match ps with
    | [] => p
    | _ => p ++ '-' :: joinHyphen ps

/-- `format_key` of `_prepare_headers`: split on underscore, capitalise
each segment, join with hyphens. -/
def format_key (key : String) : Except PyError String := do
  let fparts ← (splitUnd key.data).mapM formatPart
  return String.mk (joinHyphen fparts)

/-- Total variant of `formatPart` (empty segments map to the empty
segment); used to state what `format_key` returns when it does not
raise. -/
def formatPartOk (part : List Char) : List Char :=
  match part with
  | [] => []
  | c :: rest => c.toUpper :: rest.map Char.toLower

/-- Total variant of `format_key`. -/
def formatKeyOk (key : String) : String :=
  String.mk (joinHyphen ((splitUnd key.data).map formatPartOk))

/-- A parameter name is well formed when no underscore-separated segment
is empty. -/
def wfKey (key : String) : Prop := ∀ part ∈ splitUnd key.data, part ≠ []

instance (key : String) : Decidable (wfKey key) := by
  unfold wfKey; infer_instance

/-- One step of the dict comprehension in `_prepare_headers`: keep a
parameter only when its value is truthy, formatting its name. -/
def prepStep (acc : Headers) (kv : String × Option String) : Except PyError Headers :=
  if optTruthy kv.2 then do
    let k ← format_key kv.1
    return dictSet acc k (kv.2.getD "")
  else return acc

/-- `_prepare_headers`: `None` when no argument carries a truthy value,
otherwise the dict built from the truthy arguments with formatted
names.  The fold mirrors the comprehension's left-to-right evaluation,
so a malformed name raises only when its value is retained. -/
def prepare_headers (kwargs : List (String × Option String)) :
    Except PyError (Option Headers) :=
  if !(kwargs.any fun kv => optTruthy kv.2) then Except.ok none
  else do
    let hs ← kwargs.foldlM prepStep ([] : Headers)
    return some hs

/-- What the retained parameters become: formatted name paired with the
value, in argument order. -/
def retained (kwargs : List (String × Option String)) : Headers :=
  kwargs.filterMap fun kv =>
    if optTruthy kv.2 then some (formatKeyOk kv.1, kv.2.getD "") else none

end CumulocityRestApiDefs

/-! ## The JSON wire format

`requests.Response.json()` delegates to `json.loads`; `post_file`
builds its metadata part with Python's `str()` on a dict followed by
`.replace`.  Both are modelled here over `List Char`.  The model covers
the integral/string/array/object fragment exercised by the wrapper:
string escapes `\uXXXX` and float literals are outside the model. -/

namespace JsonWire

/-- JSON whitespace accepted between tokens by `json.loads`: space,
newline, carriage return, tab. -/
def isWsCh (c : Char) : Bool :=
  c == '\n' || c == ' ' || c == '\r' || c == '\t'

/-- Drop leading whitespace. -/
def skipWs : List Char → List Char
  | [] => []
  | c :: cs => if isWsCh c then skipWs cs else c :: cs

/-- ASCII decimal digit. -/
def isDigitCh (c : Char) : Bool := 48 ≤ c.toNat && c.toNat ≤ 57

/-- Numeric value of a digit character. -/
def digitVal (c : Char) : Nat := c.toNat - 48

/-- Read a digit string as a decimal number. -/
def decFold (ds : List Char) : Nat := ds.foldl (fun a c => a * 10 + digitVal c) 0

/-- Parse a non-empty run of decimal digits. -/
def parseNat (cs : List Char) : Option (Nat × List Char) :=
  let ds := cs.takeWhile isDigitCh
  if ds.isEmpty then none else some (decFold ds, cs.dropWhile isDigitCh)

/-- Parse an optionally signed integer literal. -/
def parseNumber : List Char → Option (Int × List Char)
  | '-' :: cs => (parseNat cs).map fun p => (-(p.1 : Int), p.2)
  | cs => (parseNat cs).map fun p => ((p.1 : Int), p.2)

/-- Single-character string escapes of JSON: `\n`, `\t`, `\r`,
backspace, form feed, and the three self-escaping characters. -/
def escCh : Char → Option Char
  | 'n' => some '\n'
  | 't' => some '\t'
  | 'r' => some '\r'
  | 'b' => some '\x08'
  | 'f' => some '\x0c'
  | '"' => some '"'
  | '\\' => some '\\'
  | '/' => some '/'
  | _ => none

/-- Parse the body of a string literal after the opening quote, up to and
including the closing quote.  Raw control characters are rejected, as
`json.loads` does in strict mode. -/
def parseStringRest : List Char → Option (List Char × List Char)
  | [] => none
  | '"' :: cs => some ([], cs)
  | '\\' :: cs =>
    match cs with
    | [] => none
    | e :: cs2 =>
      match escCh e with
      | none => none
      | some c => (parseStringRest cs2).map fun p => (c :: p.1, p.2)
  | c :: cs =>
    if c.toNat < 32 then none
    else (parseStringRest cs).map fun p => (c :: p.1, p.2)

mutual

/-- Parse one JSON value; object members are kept in the order they
occur on the wire (`object_pairs_hook` and CPython dicts both preserve
insertion order). -/
def parseVal : Nat → List Char → Option (Json × List Char)
  | 0, _ => none
  | fuel + 1, cs =>
    match skipWs cs with
    | 'n' :: 'u' :: 'l' :: 'l' :: r => some (Json.null, r)
    | 't' :: 'r' :: 'u' :: 'e' :: r => some (Json.bool true, r)
    | 'f' :: 'a' :: 'l' :: 's' :: 'e' :: r => some (Json.bool false, r)
    | '"' :: r => (parseStringRest r).map fun p => (Json.str (String.mk p.1), p.2)
    | '[' :: r =>
      (match skipWs r with
       | ']' :: r2 => some (Json.arr [], r2)
       | r2 => (parseItems fuel r2).map fun p => (Json.arr p.1, p.2))
    | '{' :: r =>
      (match skipWs r with
       | '}' :: r2 => some (Json.obj [], r2)
       | r2 => (parseMembers fuel r2).map fun p => (Json.obj p.1, p.2))
    | cs2 => (parseNumber cs2).map fun p => (Json.num p.1, p.2)

/-- Parse the comma-separated items of a non-empty array, consuming the
closing bracket. -/
def parseItems : Nat → List Char → Option (List Json × List Char)
  | 0, _ => none
  | fuel + 1, cs =>
    (parseVal fuel cs).bind fun p =>
      match skipWs p.2 with
      | ',' :: r => (parseItems fuel r).map fun q => (p.1 :: q.1, q.2)
      | ']' :: r => some ([p.1], r)
      | _ => none

/-- Parse the members of a non-empty object, consuming the closing
brace. -/
def parseMembers : Nat → List Char → Option (List (String × Json) × List Char)
  | 0, _ => none
  | fuel + 1, cs =>
    match skipWs cs with
    | '"' :: r =>
      (parseStringRest r).bind fun pk =>
        match skipWs pk.2 with
        | ':' :: r2 =>
          (parseVal fuel r2).bind fun pv =>
            match skipWs pv.2 with
            | ',' :: r3 =>
              (parseMembers fuel r3).map fun q =>
                ((String.mk pk.1, pv.1) :: q.1, q.2)
            | '}' :: r3 => some ([(String.mk pk.1, pv.1)], r3)
            | _ => none
        | _ => none
    | _ => none

end

/-- `json.loads`: parse a whole document, requiring only trailing
whitespace after the value.  The fuel bounds the parser's call depth;
two units per input character always suffice. -/
def parseJson (s : String) : Option Json :=
  match parseVal (2 * s.data.length + 2) s.data with
  | some p => if (skipWs p.2).isEmpty then some p.1 else none
  | none => none

/-- The decimal digit characters. -/
def digitChar : Nat → Char
  | 0 => '0'
  | 1 => '1'
  | 2 => '2'
  | 3 => '3'
  | 4 => '4'
  | 5 => '5'
  | 6 => '6'
  | 7 => '7'
  | 8 => '8'
  | _ => '9'

/-- Accumulate the decimal digits of `n` (fuel-driven; any fuel above
`n` yields the full representation). -/
def natDigitsAux : Nat → Nat → List Char → List Char
  | 0, _, acc => acc
  | fuel + 1, n, acc =>
    if n < 10 then digitChar n :: acc
    else natDigitsAux fuel (n / 10) (digitChar (n % 10) :: acc)

/-- Python `str` of a natural number. -/
def natDecimal (n : Nat) : List Char := natDigitsAux (n + 1) n []

/-- Python `str` of an integer. -/
def intDecimal : Int → List Char
  | Int.ofNat n => natDecimal n
  | Int.negSucc m => '-' :: natDecimal (m + 1)

/-- Escape one character the way Python `repr` does inside a string
delimited by `q` (printable characters are kept as they are; the model
covers printable payloads). -/
def pyEscChar (q : Char) (c : Char) : List Char :=
  if c == '\\' then ['\\', '\\']
  else if c == q then ['\\', q]
  else if c == '\n' then ['\\', 'n']
  else if c == '\r' then ['\\', 'r']
  else if c == '\t' then ['\\', 't']
  else [c]

/-- Python `repr` of a string, as `str` of a dict renders its keys and
values: single-quote delimited, except that a string containing a
single quote but no double quote is double-quote delimited. -/
def reprStrChars (s : String) : List Char :=
  let q : Char := if s.data.contains '\'' && !s.data.contains '"' then '"' else '\''
  q :: (s.data.map (pyEscChar q)).flatten ++ [q]

mutual

/-- Python `str()` of an embedded JSON value, as `post_file` applies it
to the binary descriptor's mapping. -/
def pyReprChars : Json → List Char
  | Json.null => "None".data
  | Json.bool true => "True".data
  | Json.bool false => "False".data
  | Json.num n => intDecimal n
  | Json.str s => reprStrChars s
  | Json.arr xs => '[' :: pyReprList xs ++ [']']
  | Json.obj kvs => '{' :: pyReprMembers kvs ++ ['}']

/-- `str()` of the items of a list, comma-space separated. -/
def pyReprList : List Json → List Char
  | [] => []
  | v :: vs =>
    match vs with
    | [] => pyReprChars v
    | _ => pyReprChars v ++ ',' :: ' ' :: pyReprList vs

/-- `str()` of the members of a dict, comma-space separated, each key
and value joined by colon-space. -/
def pyReprMembers : List (String × Json) → List Char
  | [] => []
  | (k, v) :: rest =>
    match rest with
    | [] => reprStrChars k ++ ':' :: ' ' :: pyReprChars v
    | _ => reprStrChars k ++ ':' :: ' ' :: pyReprChars v ++ ',' :: ' ' :: pyReprMembers rest

end

/-- `.replace("'", '"')` as `post_file` applies it to the `str()` text. -/
def replaceQuotes (cs : List Char) : List Char :=
  cs.map fun c => if c == '\'' then '"' else c

/-- The text of the `object` part of `post_file`'s multipart payload:
`str(binary_meta_information._to_full_json()).replace("'", '"')`. -/
def objectPartChars (meta : Json) : List Char := replaceQuotes (pyReprChars meta)

/-- `objectPartChars` packaged as a string. -/
def objectPartStr (meta : Json) : String := String.mk (objectPartChars meta)

end JsonWire

/-! ## The transport -/

/-- An HTTP response as the wrapper consumes it: status code and raw
body (`r.content` truthiness is body non-emptiness; `r.text` is the
decoded body). -/
structure Response where
  status_code : Nat
  content : String

/-- `r.text`: the response body as text. -/
def Response.text (r : Response) : String := r.content

/-- The request an operation hands to the shared session, after the
session's headers (which carry the Basic-Auth principal and the
session defaults) are merged with the per-call headers, per-call
entries winning. -/
structure SentRequest where
  method : String
  url : String
  headers : Headers
  params : Option (List (String × String))
  jsonBody : Option Json
  dataBody : Option String
  mpObject : Option String
  mpFilesize : Option Nat
  mpFile : Option String
  auth : String × String

/-- What a verb operation does: either it raises before any request is
sent (`preError`, e.g. a failed precondition assertion), or it sends
one request and then returns a value or raises from the response. -/
inductive Outcome (α : Type) where
  | preError (e : PyError) : Outcome α
  | sent (req : SentRequest) (result : Except PyError α) : Outcome α

/-- Headers of the request an outcome sent, if one was sent. -/
def Outcome.reqHeaders {α : Type} : Outcome α → Option Headers
  | Outcome.preError _ => none
  | Outcome.sent req _ => some req.headers

/-- Result component of an outcome, if a request was sent. -/
def Outcome.resultOf {α : Type} : Outcome α → Option (Except PyError α)
  | Outcome.preError _ => none
  | Outcome.sent _ res => some res


/-- The transport instance: credentials, the default-header dict, and
the shared session's header dict (built by `_create_session`). -/
structure CumulocityRestApi where
  base_url : String
  tenant_id : String
  username : String
  password : String
  tfa_token : Option String
  application_key : Option String
  auth : String × String
  default_headers : Headers
  session_headers : Headers

/-- `CumulocityRestApi.__init__` together with `_create_session`: the
auth principal is `tenant_id/username` with the password; the default
headers collect `tfatoken` and `X-Cumulocity-Application-Key` when the
corresponding arguments are truthy; the session carries
`Accept: application/json` plus the application key (but not the
two-factor token). -/
def mkCumulocityRestApi (base_url tenant_id username password : String)
    (tfa_token application_key : Option String) : CumulocityRestApi :=
  let dh0 : Headers := []
  let dh1 := if optTruthy tfa_token then dictSet dh0 "tfatoken" (tfa_token.getD "") else dh0
  let dh2 := if optTruthy application_key then
      dictSet dh1 "X-Cumulocity-Application-Key" (application_key.getD "")
    else dh1
  let sh0 : Headers := [("Accept", "application/json")]
  let sh1 := if optTruthy application_key then
      dictUpdate sh0 [("X-Cumulocity-Application-Key", application_key.getD "")]
    else sh0
  { base_url := base_url
    tenant_id := tenant_id
    username := username
    password := password
    tfa_token := tfa_token
    application_key := application_key
    auth := (tenant_id ++ "/" ++ username, password)
    default_headers := dh2
    session_headers := sh1 }

/-- How `requests` merges a session's headers with a call's headers:
the session dict is the base, per-call entries override. -/
def mergeSessionHeaders (self : CumulocityRestApi) (additional : Option Headers) : Headers :=
  match additional with
  | some ah => dictUpdate self.session_headers ah
  | none => self.session_headers

/-- `prepare_request`: binds `hs` to the instance's default-header dict
without copying, so a truthy `additional_headers` argument makes
`hs.update(...)` write through into the instance.  The returned pair is
the instance as the call leaves it together with the prepared request. -/
def CumulocityRestApi.prepare_request (self : CumulocityRestApi) (method resource : String)
    (body : Option Json) (additional_headers : Option Headers) :
    CumulocityRestApi × SentRequest :=
  let hs := match additional_headers with
    | some ah => if ah.isEmpty then self.default_headers else dictUpdate self.default_headers ah
    | none => self.default_headers
  ({ self with default_headers := hs },
   { method := method
     url := self.base_url ++ resource
     headers := hs
     params := none
     jsonBody := match body with
       | some b => if b.truthy then some b else none
       | none => none
     dataBody := none
     mpObject := none
     mpFilesize := none
     mpFile := none
     auth := self.auth })

/-- `get`: additional headers from the `accept` argument, then the
status dispatch 404 / 5xx / non-200 / body.  `r.json()` with or without
`object_pairs_hook=OrderedDict` keeps the wire's member order (the hook
changes only the mapping type), so `ordered` does not change the
returned value in the embedding. -/
def CumulocityRestApi.get (self : CumulocityRestApi) (resource : String)
    (params : Option (List (String × String))) (accept : Option String)
    (ordered : Bool) (r : Response) : Outcome Json :=
  match CumulocityRestApiDefs.prepare_headers [("accept", accept)] with
  | Except.error e => Outcome.preError e
  | Except.ok additional_headers =>
    let req : SentRequest :=
      { method := "GET"
        url := self.base_url ++ resource
        headers := mergeSessionHeaders self additional_headers
        params := params
        jsonBody := none
        dataBody := none
        mpObject := none
        mpFilesize := none
        mpFile := none
        auth := self.auth }
    Outcome.sent req (
      if r.status_code = 404 then
        Except.error (PyError.keyError ("No such object: " ++ resource))
      else if 500 ≤ r.status_code ∧ r.status_code ≤ 599 then
        Except.error (PyError.syntaxError
          ("Invalid GET request. Status: " ++ toString r.status_code ++
            " Response:\n" ++ r.text))
      else if r.status_code ≠ 200 then
        Except.error (PyError.valueError
          ("Unable to perform GET request. Status: " ++ toString r.status_code ++
            " Response:\n" ++ r.text))
      else if r.content ≠ "" then
        match JsonWire.parseJson r.content with
        | some v => Except.ok v
        | none => Except.error PyError.jsonDecodeError
      else Except.ok (Json.obj []))

/-- `post`: asserts the body is a dict before anything else, then sends
with headers from `accept`/`content_type`, succeeding on 201 or 200. -/
def CumulocityRestApi.post (self : CumulocityRestApi) (resource : String)
    (json : Json) (accept : Option String) (content_type : Option String)
    (r : Response) : Outcome Json :=
  if !json.isObj then Outcome.preError PyError.assertionError
  else
    match CumulocityRestApiDefs.prepare_headers
        [("accept", accept), ("content_type", content_type)] with
    | Except.error e => Outcome.preError e
    | Except.ok additional_headers =>
      let req : SentRequest :=
        { method := "POST"
          url := self.base_url ++ resource
          headers := mergeSessionHeaders self additional_headers
          params := none
          jsonBody := some json
          dataBody := none
          mpObject := none
          mpFilesize := none
          mpFile := none
          auth := self.auth }
      Outcome.sent req (
        if 500 ≤ r.status_code ∧ r.status_code ≤ 599 then
          Except.error (PyError.syntaxError
            ("Invalid POST request. Status: " ++ toString r.status_code ++
              " Response:\n" ++ r.text))
        else if r.status_code ≠ 201 ∧ r.status_code ≠ 200 then
          Except.error (PyError.valueError
            ("Unable to perform POST request. Status: " ++ toString r.status_code ++
              " Response:\n" ++ r.text))
        else if r.content ≠ "" then
          match JsonWire.parseJson r.content with
          | some v => Except.ok v
          | none => Except.error PyError.jsonDecodeError
        else Except.ok (Json.obj []))

set_option linter.unusedVariables false in
/-- `post_file`: its first statement,
`assert isinstance(binary_meta_information, Binary)`, evaluates the
name `Binary`, which `_base_api.py` never imports or defines (its
imports are `sys`, `typing.Union`, `requests` and `collections`), so
under the assert-enabled semantics modelled throughout this file every
call raises `NameError: name 'Binary' is not defined` before the
headers, the multipart payload or any request exist.  The rest of the
method body — the `Accept` header overlay, the multipart dict whose
`object` field is `str(...).replace` and whose `filesize` field is
`sys.getsizeof(file)`, and the 5xx/non-201 dispatch — is unreachable;
its metadata-serialization expression is modelled separately as
`JsonWire.objectPartStr`.  The arguments (`meta` standing for the
mapping the descriptor's `_to_full_json()` would return, the file and
its interpreter-level size) are kept to mirror the signature. -/
def CumulocityRestApi.post_file (self : CumulocityRestApi) (resource : String)
    (file : Option String) (file_sizeof : Nat) (meta : Json) (r : Response) :
    Outcome Json :=
  Outcome.preError (PyError.nameError "name 'Binary' is not defined")

/-- `put`: same dict assertion as `post`; 404, then 5xx, then non-200
raise; otherwise the parsed body or the empty dict. -/
def CumulocityRestApi.put (self : CumulocityRestApi) (resource : String)
    (json : Json) (accept : Option String) (content_type : Option String)
    (r : Response) : Outcome Json :=
  if !json.isObj then Outcome.preError PyError.assertionError
  else
    match CumulocityRestApiDefs.prepare_headers
        [("accept", accept), ("content_type", content_type)] with
    | Except.error e => Outcome.preError e
    | Except.ok additional_headers =>
      let req : SentRequest :=
        { method := "PUT"
          url := self.base_url ++ resource
          headers := mergeSessionHeaders self additional_headers
          params := none
          jsonBody := some json
          dataBody := none
          mpObject := none
          mpFilesize := none
          mpFile := none
          auth := self.auth }
      Outcome.sent req (
        if r.status_code = 404 then
          Except.error (PyError.keyError ("No such object: " ++ resource))
        else if 500 ≤ r.status_code ∧ r.status_code ≤ 599 then
          Except.error (PyError.syntaxError
            ("Invalid PUT request. Status: " ++ toString r.status_code ++
              " Response:\n" ++ r.text))
        else if r.status_code ≠ 200 then
          Except.error (PyError.valueError
            ("Unable to perform PUT request. Status: " ++ toString r.status_code ++
              " Response:\n" ++ r.text))
        else if r.content ≠ "" then
          match JsonWire.parseJson r.content with
          | some v => Except.ok v
          | none => Except.error PyError.jsonDecodeError
        else Except.ok (Json.obj []))

/-- `put_file`: raw upload of the file's bytes with an explicit
`Content-Type` overlaid with the instance default headers; success is
201 only and nothing is returned. -/
def CumulocityRestApi.put_file (self : CumulocityRestApi) (resource : String)
    (file : String) (media_type : String) (r : Response) : Outcome Unit :=
  let headers := dictUpdate [("Content-Type", media_type)] self.default_headers
  let req : SentRequest :=
    { method := "PUT"
      url := self.base_url ++ resource
      headers := mergeSessionHeaders self (some headers)
      params := none
      jsonBody := none
      dataBody := some file
      mpObject := none
      mpFilesize := none
      mpFile := none
      auth := self.auth }
  Outcome.sent req (
    if r.status_code = 404 then
      Except.error (PyError.keyError ("No such object: " ++ resource))
    else if 500 ≤ r.status_code ∧ r.status_code ≤ 599 then
      Except.error (PyError.syntaxError
        ("Invalid PUT request. Status: " ++ toString r.status_code ++
          " Response:\n" ++ r.text))
    else if r.status_code ≠ 201 then
      Except.error (PyError.valueError
        ("Unable to perform PUT request. Status: " ++ toString r.status_code ++
          " Response:\n" ++ r.text))
    else Except.ok ())

/-- `delete`: sent with the session headers alone; success is 204 or
200 and nothing is returned. -/
def CumulocityRestApi.delete (self : CumulocityRestApi) (resource : String)
    (r : Response) : Outcome Unit :=
  let req : SentRequest :=
    { method := "DELETE"
      url := self.base_url ++ resource
      headers := mergeSessionHeaders self none
      params := none
      jsonBody := none
      dataBody := none
      mpObject := none
      mpFilesize := none
      mpFile := none
      auth := self.auth }
  Outcome.sent req (
    if r.status_code = 404 then
      Except.error (PyError.keyError ("No such object: " ++ resource))
    else if 500 ≤ r.status_code ∧ r.status_code ≤ 599 then
      Except.error (PyError.syntaxError
        ("Invalid DELETE request. Status: " ++ toString r.status_code ++
          " Response:\n" ++ r.text))
    else if r.status_code ≠ 204 ∧ r.status_code ≠ 200 then
      Except.error (PyError.valueError
        ("Unable to perform DELETE request. Status: " ++ toString r.status_code ++
          " Response:\n" ++ r.text))
    else Except.ok ())

/-! ## Header formatting: totality on well-formed names, `IndexError` otherwise -/

namespace CumulocityRestApiDefs

theorem formatPart_ok {part : List Char} (h : part ≠ []) :
    formatPart part = Except.ok (formatPartOk part) := by
  cases part with
  | nil => exact absurd rfl h
  | cons c rest => rfl

theorem formatPart_err :
    formatPart [] = Except.error (PyError.indexError "string index out of range") := rfl

theorem mapM_formatPart_ok {parts : List (List Char)} (h : ∀ p ∈ parts, p ≠ []) :
    parts.mapM formatPart = Except.ok (parts.map formatPartOk) := by
  induction parts with
  | nil => rfl
  | cons p rest ih =>
    rw [List.mapM_cons, formatPart_ok (h p (by simp)), ih (fun q hq => h q (by simp [hq]))]
    rfl

theorem mapM_formatPart_err {parts : List (List Char)} (h : [] ∈ parts) :
    parts.mapM formatPart = Except.error (PyError.indexError "string index out of range") := by
  induction parts with
  | nil => simp at h
  | cons p rest ih =>
    rw [List.mapM_cons]
    by_cases hp : p = []
    · subst hp
      rfl
    · rw [formatPart_ok hp]
      rcases List.mem_cons.mp h with h1 | h2
      · exact absurd h1.symm hp
      · rw [ih h2]
        rfl

theorem format_key_ok {key : String} (h : wfKey key) :
    format_key key = Except.ok (formatKeyOk key) := by
  unfold format_key formatKeyOk
  rw [mapM_formatPart_ok h]
  rfl

theorem format_key_err {key : String} (h : ¬ wfKey key) :
    format_key key = Except.error (PyError.indexError "string index out of range") := by
  unfold format_key
  unfold wfKey at h
  push_neg at h
  obtain ⟨part, hmem, hempty⟩ := h
  rw [mapM_formatPart_err (hempty ▸ hmem)]
  rfl

/-- Total counterpart of `prepStep`: what the comprehension adds for one
parameter when no `IndexError` occurs. -/
def prepStepOk (acc : Headers) (kv : String × Option String) : Headers :=
  if optTruthy kv.2 then dictSet acc (formatKeyOk kv.1) (kv.2.getD "") else acc

theorem foldlM_prepStep_ok {kwargs : List (String × Option String)}
    (h : ∀ kv ∈ kwargs, optTruthy kv.2 = true → wfKey kv.1) (acc : Headers) :
    kwargs.foldlM prepStep acc = Except.ok (kwargs.foldl prepStepOk acc) := by
  induction kwargs generalizing acc with
  | nil => rfl
  | cons kv rest ih =>
    rw [List.foldlM_cons, List.foldl_cons]
    have hstep : prepStep acc kv = Except.ok (prepStepOk acc kv) := by
      unfold prepStep prepStepOk
      by_cases ht : optTruthy kv.2 = true
      · rw [if_pos ht, if_pos ht, format_key_ok (h kv (by simp) ht)]
        rfl
      · rw [if_neg ht, if_neg ht]
        rfl
    rw [hstep]
    exact ih (fun kv' h' ht' => h kv' (by simp [h']) ht') _

theorem foldlM_prepStep_err {kwargs : List (String × Option String)}
    (h : ∃ kv ∈ kwargs, optTruthy kv.2 = true ∧ ¬ wfKey kv.1) (acc : Headers) :
    kwargs.foldlM prepStep acc =
      Except.error (PyError.indexError "string index out of range") := by
  induction kwargs generalizing acc with
  | nil => simp at h
  | cons kv rest ih =>
    rw [List.foldlM_cons]
    by_cases hbad : optTruthy kv.2 = true ∧ ¬ wfKey kv.1
    · have : prepStep acc kv = Except.error (PyError.indexError "string index out of range") := by
        unfold prepStep
        rw [if_pos hbad.1, format_key_err hbad.2]
        rfl
      rw [this]
      rfl
    · have hstep : ∃ acc', prepStep acc kv = Except.ok acc' := by
        unfold prepStep
        by_cases ht : optTruthy kv.2 = true
        · rw [if_pos ht, format_key_ok (by
            rcases Decidable.em (wfKey kv.1) with hw | hw
            · exact hw
            · exact absurd ⟨ht, hw⟩ hbad)]
          exact ⟨_, rfl⟩
        · rw [if_neg ht]
          exact ⟨_, rfl⟩
      obtain ⟨acc', hacc⟩ := hstep
      rw [hacc]
      have hrest : ∃ kv' ∈ rest, optTruthy kv'.2 = true ∧ ¬ wfKey kv'.1 := by
        obtain ⟨kv', hmem, hprop⟩ := h
        rcases List.mem_cons.mp hmem with rfl | hmem'
        · exact absurd hprop hbad
        · exact ⟨kv', hmem', hprop⟩
      exact ih hrest _

theorem dictSet_of_not_mem {d : Headers} {k : String} (v : String)
    (h : k ∉ d.map Prod.fst) : dictSet d k v = d ++ [(k, v)] := by
  induction d with
  | nil => rfl
  | cons kv rest ih =>
    simp only [List.map_cons, List.mem_cons] at h
    push_neg at h
    unfold dictSet
    rw [if_neg (fun he => h.1 he.symm), ih h.2]
    simp

theorem foldl_prepStepOk_append {kwargs : List (String × Option String)} (acc : Headers)
    (hnd : ((retained kwargs).map Prod.fst).Nodup)
    (hdisj : ∀ k ∈ (retained kwargs).map Prod.fst, k ∉ acc.map Prod.fst) :
    kwargs.foldl prepStepOk acc = acc ++ retained kwargs := by
  induction kwargs generalizing acc with
  | nil => simp [retained]
  | cons kv rest ih =>
    rw [List.foldl_cons]
    by_cases ht : optTruthy kv.2 = true
    · have hr : retained (kv :: rest) = (formatKeyOk kv.1, kv.2.getD "") :: retained rest := by
        simp [retained, ht]
      rw [hr] at hnd hdisj
      simp only [List.map_cons, List.nodup_cons] at hnd
      have hstep : prepStepOk acc kv = acc ++ [(formatKeyOk kv.1, kv.2.getD "")] := by
        unfold prepStepOk
        rw [if_pos ht, dictSet_of_not_mem _ (hdisj _ (by simp))]
      rw [hstep, ih (acc ++ [(formatKeyOk kv.1, kv.2.getD "")]) hnd.2 ?_, hr,
        List.append_assoc]
      · rfl
      · intro k hk
        simp only [List.map_append, List.mem_append, List.map_cons, List.map_nil]
        push_neg
        refine ⟨hdisj k (by simp [hk]), ?_⟩
        simp only [List.mem_singleton]
        intro he
        exact hnd.1 (he ▸ hk)
    · have hr : retained (kv :: rest) = retained rest := by
        simp [retained, ht]
      have hstep : prepStepOk acc kv = acc := by
        unfold prepStepOk
        rw [if_neg ht]
      rw [hr] at hnd hdisj
      rw [hstep, hr]
      exact ih acc hnd hdisj

/-- The computational content of `_prepare_headers` on well-formed
names: `None` when nothing is truthy, otherwise exactly the retained
parameters, formatted, in order. -/
theorem prepare_headers_eq_retained {kwargs : List (String × Option String)}
    (hwf : ∀ kv ∈ kwargs, optTruthy kv.2 = true → wfKey kv.1)
    (hnd : ((retained kwargs).map Prod.fst).Nodup) :
    prepare_headers kwargs =
      Except.ok (if kwargs.any (fun kv => optTruthy kv.2) then some (retained kwargs)
        else none) := by
  unfold prepare_headers
  by_cases hany : kwargs.any (fun kv => optTruthy kv.2) = true
  · rw [if_neg (by simp [hany]), if_pos hany,
      foldlM_prepStep_ok hwf, foldl_prepStepOk_append ([] : Headers) hnd (by simp)]
    rfl
  · rw [if_pos (by simp [Bool.not_eq_true] at hany ⊢; exact hany), if_neg hany]

end CumulocityRestApiDefs

/-- C4: for every set of named header parameters whose retained names
are well formed (each underscore-separated segment non-empty) and
collide on no formatted key, `_prepare_headers` succeeds and returns:
the `None` marker when no parameter carries a truthy value, and
otherwise the mapping holding, for each parameter `some_name` with a
non-empty value, the key `Some-Name` (split on underscore, first letter
of each segment upper-cased, the rest lower-cased, joined with
hyphens) mapped to that value, parameters with an absent or null value
omitted.  The second conjunct records that the `None` marker is
distinguishable from every mapping, the empty one included. -/
theorem claim_C4_header_formatting {kwargs : List (String × Option String)}
    (hwf : ∀ kv ∈ kwargs, optTruthy kv.2 = true → CumulocityRestApiDefs.wfKey kv.1)
    (hnd : ((CumulocityRestApiDefs.retained kwargs).map Prod.fst).Nodup) :
    CumulocityRestApiDefs.prepare_headers kwargs =
      Except.ok (if kwargs.any (fun kv => optTruthy kv.2)
        then some (CumulocityRestApiDefs.retained kwargs) else none) ∧
    ∀ m : Headers, (none : Option Headers) ≠ some m :=
  ⟨CumulocityRestApiDefs.prepare_headers_eq_retained hwf hnd, fun _ h => Option.noConfusion h⟩

/-- Witness for C4: `some_name` with value `v` and `absent` with no
value format to exactly the mapping `Some-Name ↦ v`. -/
theorem claim_C4_header_formatting_witness :
    CumulocityRestApiDefs.prepare_headers [("some_name", some "v"), ("absent", none)] =
      Except.ok (some [("Some-Name", "v")]) :=
  (claim_C4_header_formatting (by decide) (by decide)).1.trans (by rfl)

/-- C10: `_prepare_headers` is total — returns some value — whenever
every retained parameter name has only non-empty underscore-separated
segments, and raises `IndexError('string index out of range')` whenever
some parameter with a truthy value has a name with an empty segment
(leading, trailing or doubled underscore). -/
theorem claim_C10_header_formatting_partiality (kwargs : List (String × Option String)) :
    ((∀ kv ∈ kwargs, optTruthy kv.2 = true → CumulocityRestApiDefs.wfKey kv.1) →
      ∃ r, CumulocityRestApiDefs.prepare_headers kwargs = Except.ok r) ∧
    ((∃ kv ∈ kwargs, optTruthy kv.2 = true ∧ ¬ CumulocityRestApiDefs.wfKey kv.1) →
      CumulocityRestApiDefs.prepare_headers kwargs =
        Except.error (PyError.indexError "string index out of range")) := by
  constructor
  · intro hwf
    unfold CumulocityRestApiDefs.prepare_headers
    by_cases hany : kwargs.any (fun kv => optTruthy kv.2) = true
    · refine ⟨some (kwargs.foldl CumulocityRestApiDefs.prepStepOk []), ?_⟩
      rw [if_neg (by simp [hany]), CumulocityRestApiDefs.foldlM_prepStep_ok hwf]
      rfl
    · exact ⟨none, by rw [if_pos (by simpa using hany)]⟩
  · intro hex
    have hany : kwargs.any (fun kv => optTruthy kv.2) = true := by
      obtain ⟨kv, hm, ht, _⟩ := hex
      exact List.any_eq_true.mpr ⟨kv, hm, ht⟩
    unfold CumulocityRestApiDefs.prepare_headers
    rw [if_neg (by simp [hany]), CumulocityRestApiDefs.foldlM_prepStep_err hex]
    rfl

/-- Witness for C10: a well-formed call succeeds; `_bad` (leading
underscore, hence an empty first segment) with a truthy value raises
the out-of-range `IndexError`. -/
theorem claim_C10_header_formatting_partiality_witness :
    (∃ r, CumulocityRestApiDefs.prepare_headers [("accept", some "application/json")] =
      Except.ok r) ∧
    CumulocityRestApiDefs.prepare_headers [("_bad", some "v")] =
      Except.error (PyError.indexError "string index out of range") :=
  ⟨(claim_C10_header_formatting_partiality [("accept", some "application/json")]).1 (by decide),
   (claim_C10_header_formatting_partiality [("_bad", some "v")]).2
     ⟨("_bad", some "v"), by decide, by decide, by decide⟩⟩

/-- C1 (the claim fails on the code): the default-header dict of an
instance built with a two-factor token holds exactly `tfatoken`, but a
`prepare_request` call with additional headers writes through into the
instance — `hs = self.__default_headers` aliases the dict and
`hs.update(...)` mutates it — so afterwards the instance's
default-header dict differs from the one built at construction. -/
theorem claim_C1_prepare_request_mutates_default_headers :
    (mkCumulocityRestApi "http://base.com" "t12345" "username" "password"
        (some "tfa-token") none).default_headers = [("tfatoken", "tfa-token")] ∧
    ((mkCumulocityRestApi "http://base.com" "t12345" "username" "password"
        (some "tfa-token") none).prepare_request "GET" "/resource" none
        (some [("X-Extra", "y")])).1.default_headers =
      [("tfatoken", "tfa-token"), ("X-Extra", "y")] ∧
    ((mkCumulocityRestApi "http://base.com" "t12345" "username" "password"
        (some "tfa-token") none).prepare_request "GET" "/resource" none
        (some [("X-Extra", "y")])).1.default_headers ≠
      (mkCumulocityRestApi "http://base.com" "t12345" "username" "password"
        (some "tfa-token") none).default_headers := by
  refine ⟨rfl, rfl, ?_⟩
  decide

/-! ## The additional headers of get / post / put always build -/

theorem prepare_headers_accept (accept : Option String) :
    CumulocityRestApiDefs.prepare_headers [("accept", accept)] =
      Except.ok (if optTruthy accept
        then some [("Accept", accept.getD "")] else none) := by
  rw [CumulocityRestApiDefs.prepare_headers_eq_retained]
  · by_cases ht : optTruthy accept = true
    · simp [ht, CumulocityRestApiDefs.retained]
      rfl
    · simp [Bool.not_eq_true] at ht
      simp [ht]
  · intro kv hkv ht
    simp only [List.mem_singleton] at hkv
    subst hkv
    exact (by decide : CumulocityRestApiDefs.wfKey "accept")
  · by_cases ht : optTruthy accept = true
    · simp [CumulocityRestApiDefs.retained, ht]
    · simp [Bool.not_eq_true] at ht
      simp [CumulocityRestApiDefs.retained, ht]

theorem prepare_headers_accept_ct (accept ct : Option String) :
    CumulocityRestApiDefs.prepare_headers [("accept", accept), ("content_type", ct)] =
      Except.ok (if optTruthy accept || optTruthy ct then
        some ((if optTruthy accept then [("Accept", accept.getD "")] else []) ++
          (if optTruthy ct then [("Content-Type", ct.getD "")] else []))
        else none) := by
  rw [CumulocityRestApiDefs.prepare_headers_eq_retained]
  · have hfa : CumulocityRestApiDefs.formatKeyOk "accept" = "Accept" := rfl
    have hfc : CumulocityRestApiDefs.formatKeyOk "content_type" = "Content-Type" := rfl
    by_cases h1 : optTruthy accept = true <;> by_cases h2 : optTruthy ct = true <;>
      simp [Bool.not_eq_true] at h1 h2 <;>
      simp [h1, h2, CumulocityRestApiDefs.retained, hfa, hfc]
  · intro kv hkv ht
    rcases List.mem_cons.mp hkv with rfl | hkv2
    · exact (by decide : CumulocityRestApiDefs.wfKey "accept")
    · simp only [List.mem_singleton] at hkv2
      subst hkv2
      exact (by decide : CumulocityRestApiDefs.wfKey "content_type")
  · have hfa : CumulocityRestApiDefs.formatKeyOk "accept" = "Accept" := rfl
    have hfc : CumulocityRestApiDefs.formatKeyOk "content_type" = "Content-Type" := rfl
    by_cases h1 : optTruthy accept = true <;> by_cases h2 : optTruthy ct = true <;>
      simp [Bool.not_eq_true] at h1 h2 <;>
      simp [h1, h2, CumulocityRestApiDefs.retained, hfa, hfc]

/-! ## Evaluation lemmas for the verb operations -/

/-- `r.json() if r.content else {}`: the common success tail of
`get` / `post` / `put`. -/
def jsonOrEmptyBody (r : Response) : Except PyError Json :=
  if r.content ≠ "" then
    match JsonWire.parseJson r.content with
    | some v => Except.ok v
    | none => Except.error PyError.jsonDecodeError
  else Except.ok (Json.obj [])

theorem get_resultOf (self : CumulocityRestApi) (resource : String)
    (params : Option (List (String × String))) (accept : Option String)
    (ordered : Bool) (r : Response) :
    (self.get resource params accept ordered r).resultOf = some (
      if r.status_code = 404 then
        Except.error (PyError.keyError ("No such object: " ++ resource))
      else if 500 ≤ r.status_code ∧ r.status_code ≤ 599 then
        Except.error (PyError.syntaxError
          ("Invalid GET request. Status: " ++ toString r.status_code ++
            " Response:\n" ++ r.text))
      else if r.status_code ≠ 200 then
        Except.error (PyError.valueError
          ("Unable to perform GET request. Status: " ++ toString r.status_code ++
            " Response:\n" ++ r.text))
      else jsonOrEmptyBody r) := by
  unfold CumulocityRestApi.get
  rw [prepare_headers_accept]
  rfl

theorem post_resultOf (self : CumulocityRestApi) (resource : String)
    {json : Json} (hobj : json.isObj = true) (accept : Option String)
    (content_type : Option String) (r : Response) :
    (self.post resource json accept content_type r).resultOf = some (
      if 500 ≤ r.status_code ∧ r.status_code ≤ 599 then
        Except.error (PyError.syntaxError
          ("Invalid POST request. Status: " ++ toString r.status_code ++
            " Response:\n" ++ r.text))
      else if r.status_code ≠ 201 ∧ r.status_code ≠ 200 then
        Except.error (PyError.valueError
          ("Unable to perform POST request. Status: " ++ toString r.status_code ++
            " Response:\n" ++ r.text))
      else jsonOrEmptyBody r) := by
  unfold CumulocityRestApi.post
  rw [if_neg (by simp [hobj]), prepare_headers_accept_ct]
  rfl

theorem put_resultOf (self : CumulocityRestApi) (resource : String)
    {json : Json} (hobj : json.isObj = true) (accept : Option String)
    (content_type : Option String) (r : Response) :
    (self.put resource json accept content_type r).resultOf = some (
      if r.status_code = 404 then
        Except.error (PyError.keyError ("No such object: " ++ resource))
      else if 500 ≤ r.status_code ∧ r.status_code ≤ 599 then
        Except.error (PyError.syntaxError
          ("Invalid PUT request. Status: " ++ toString r.status_code ++
            " Response:\n" ++ r.text))
      else if r.status_code ≠ 200 then
        Except.error (PyError.valueError
          ("Unable to perform PUT request. Status: " ++ toString r.status_code ++
            " Response:\n" ++ r.text))
      else jsonOrEmptyBody r) := by
  unfold CumulocityRestApi.put
  rw [if_neg (by simp [hobj]), prepare_headers_accept_ct]
  rfl

/-- C5: a GET's failure kind is fixed by the response status — 404
raises `KeyError` whose message is `No such object: <resource>` (so it
contains the requested resource path); a status in `[500, 599]` raises
`SyntaxError` carrying the status code and the raw response text; any
other non-200 status raises `ValueError` carrying the status code and
the raw response text. -/
theorem claim_C5_get_error_mapping (self : CumulocityRestApi) (resource : String)
    (params : Option (List (String × String))) (accept : Option String)
    (ordered : Bool) (r : Response) :
    (r.status_code = 404 →
      (self.get resource params accept ordered r).resultOf =
        some (Except.error (PyError.keyError ("No such object: " ++ resource)))) ∧
    (500 ≤ r.status_code → r.status_code ≤ 599 →
      (self.get resource params accept ordered r).resultOf =
        some (Except.error (PyError.syntaxError
          ("Invalid GET request. Status: " ++ toString r.status_code ++
            " Response:\n" ++ r.text)))) ∧
    (r.status_code ≠ 200 → r.status_code ≠ 404 →
      ¬(500 ≤ r.status_code ∧ r.status_code ≤ 599) →
      (self.get resource params accept ordered r).resultOf =
        some (Except.error (PyError.valueError
          ("Unable to perform GET request. Status: " ++ toString r.status_code ++
            " Response:\n" ++ r.text)))) := by
  refine ⟨fun h404 => ?_, fun h5a h5b => ?_, fun hn200 hn404 hn5 => ?_⟩
  · rw [get_resultOf, if_pos h404]
  · rw [get_resultOf, if_neg (by omega), if_pos ⟨h5a, h5b⟩]
  · rw [get_resultOf, if_neg hn404, if_neg hn5, if_pos hn200]

/-- Witness for C5: status 404 on resource `some/key` gives the
`KeyError` naming `some/key`; 503 gives the `SyntaxError` with status
and body; 401 gives the `ValueError` with status and body. -/
theorem claim_C5_get_error_mapping_witness :
    ((mkCumulocityRestApi "" "" "" "" none none).get "some/key" none none false
        ⟨404, ""⟩).resultOf =
      some (Except.error (PyError.keyError "No such object: some/key")) ∧
    ((mkCumulocityRestApi "" "" "" "" none none).get "/r" none none false
        ⟨503, "oops"⟩).resultOf =
      some (Except.error (PyError.syntaxError
        "Invalid GET request. Status: 503 Response:\noops")) ∧
    ((mkCumulocityRestApi "" "" "" "" none none).get "/r" none none false
        ⟨401, "denied"⟩).resultOf =
      some (Except.error (PyError.valueError
        "Unable to perform GET request. Status: 401 Response:\ndenied")) := by
  refine ⟨?_, ?_, ?_⟩
  · exact ((claim_C5_get_error_mapping (mkCumulocityRestApi "" "" "" "" none none)
      "some/key" none none false ⟨404, ""⟩).1 rfl).trans (by rfl)
  · exact ((claim_C5_get_error_mapping (mkCumulocityRestApi "" "" "" "" none none)
      "/r" none none false ⟨503, "oops"⟩).2.1 (by decide) (by decide)).trans (by rfl)
  · exact ((claim_C5_get_error_mapping (mkCumulocityRestApi "" "" "" "" none none)
      "/r" none none false ⟨401, "denied"⟩).2.2 (by decide) (by decide) (by decide)).trans (by rfl)

/-- C6: a POST or PUT whose `json` argument is not a mapping raises
`AssertionError` before any request is sent — the outcome is
`preError`, which carries no sent request — and that failure is a
different error kind from the HTTP-derived `KeyError`, `SyntaxError`
and `ValueError`. -/
theorem claim_C6_non_mapping_body (self : CumulocityRestApi) (resource : String)
    (json : Json) (accept content_type : Option String) (r : Response)
    (hobj : json.isObj = false) :
    self.post resource json accept content_type r =
      Outcome.preError PyError.assertionError ∧
    self.put resource json accept content_type r =
      Outcome.preError PyError.assertionError ∧
    (∀ m, PyError.assertionError ≠ PyError.keyError m) ∧
    (∀ m, PyError.assertionError ≠ PyError.syntaxError m) ∧
    (∀ m, PyError.assertionError ≠ PyError.valueError m) := by
  refine ⟨?_, ?_, fun m h => PyError.noConfusion h, fun m h => PyError.noConfusion h,
    fun m h => PyError.noConfusion h⟩
  · unfold CumulocityRestApi.post
    rw [if_pos (by simp [hobj])]
  · unfold CumulocityRestApi.put
    rw [if_pos (by simp [hobj])]

/-- Witness for C6: a string body makes POST and PUT fail with the
assertion error and no request. -/
theorem claim_C6_non_mapping_body_witness :
    (mkCumulocityRestApi "" "" "" "" none none).post "/r" (Json.str "body") none none
        ⟨201, ""⟩ = Outcome.preError PyError.assertionError ∧
    (mkCumulocityRestApi "" "" "" "" none none).put "/r" (Json.str "body") none none
        ⟨200, ""⟩ = Outcome.preError PyError.assertionError :=
  ⟨(claim_C6_non_mapping_body (mkCumulocityRestApi "" "" "" "" none none) "/r"
      (Json.str "body") none none ⟨201, ""⟩ rfl).1,
   (claim_C6_non_mapping_body (mkCumulocityRestApi "" "" "" "" none none) "/r"
      (Json.str "body") none none ⟨200, ""⟩ rfl).2.1⟩

/-- C7: POST succeeds exactly on 200 or 201 and has no not-found case —
a 404 response raises the request `ValueError` (which is a different
constructor from `KeyError`), a status in `[500, 599]` raises the
server `SyntaxError`, any other non-success status raises the request
`ValueError`, and on 200/201 the operation proceeds to the body with no
status error. -/
theorem claim_C7_post_status_mapping (self : CumulocityRestApi) (resource : String)
    (json : Json) (hobj : json.isObj = true) (accept content_type : Option String)
    (r : Response) :
    (r.status_code = 404 →
      (self.post resource json accept content_type r).resultOf =
        some (Except.error (PyError.valueError
          ("Unable to perform POST request. Status: " ++ toString r.status_code ++
            " Response:\n" ++ r.text)))) ∧
    (∀ m₁ m₂, PyError.valueError m₁ ≠ PyError.keyError m₂) ∧
    (500 ≤ r.status_code → r.status_code ≤ 599 →
      (self.post resource json accept content_type r).resultOf =
        some (Except.error (PyError.syntaxError
          ("Invalid POST request. Status: " ++ toString r.status_code ++
            " Response:\n" ++ r.text)))) ∧
    (r.status_code = 200 ∨ r.status_code = 201 →
      (self.post resource json accept content_type r).resultOf =
        some (jsonOrEmptyBody r)) ∧
    (r.status_code ≠ 200 → r.status_code ≠ 201 →
      ¬(500 ≤ r.status_code ∧ r.status_code ≤ 599) →
      (self.post resource json accept content_type r).resultOf =
        some (Except.error (PyError.valueError
          ("Unable to perform POST request. Status: " ++ toString r.status_code ++
            " Response:\n" ++ r.text)))) := by
  refine ⟨fun h404 => ?_, fun m₁ m₂ h => PyError.noConfusion h, fun h5a h5b => ?_,
    fun hs => ?_, fun hn200 hn201 hn5 => ?_⟩
  · rw [post_resultOf self resource hobj, if_neg (by omega), if_pos (by omega)]
  · rw [post_resultOf self resource hobj, if_pos ⟨h5a, h5b⟩]
  · rw [post_resultOf self resource hobj, if_neg (by rcases hs with h | h <;> omega),
      if_neg (by rcases hs with h | h <;> simp [h])]
  · rw [post_resultOf self resource hobj, if_neg hn5, if_pos ⟨hn201, hn200⟩]

/-- Witness for C7: with a dict body, 404 yields the request
`ValueError` (not `KeyError`); 502 yields the server `SyntaxError`; 201
with body proceeds to the parsed body. -/
theorem claim_C7_post_status_mapping_witness :
    ((mkCumulocityRestApi "" "" "" "" none none).post "/r" (Json.obj []) none none
        ⟨404, "missing"⟩).resultOf =
      some (Except.error (PyError.valueError
        "Unable to perform POST request. Status: 404 Response:\nmissing")) ∧
    ((mkCumulocityRestApi "" "" "" "" none none).post "/r" (Json.obj []) none none
        ⟨502, "bad"⟩).resultOf =
      some (Except.error (PyError.syntaxError
        "Invalid POST request. Status: 502 Response:\nbad")) ∧
    ((mkCumulocityRestApi "" "" "" "" none none).post "/r" (Json.obj []) none none
        ⟨201, ""⟩).resultOf = some (Except.ok (Json.obj [])) := by
  refine ⟨?_, ?_, ?_⟩
  · exact ((claim_C7_post_status_mapping (mkCumulocityRestApi "" "" "" "" none none)
      "/r" (Json.obj []) rfl none none ⟨404, "missing"⟩).1 rfl).trans (by rfl)
  · exact ((claim_C7_post_status_mapping (mkCumulocityRestApi "" "" "" "" none none)
      "/r" (Json.obj []) rfl none none ⟨502, "bad"⟩).2.2.1 (by decide) (by decide)).trans (by rfl)
  · exact ((claim_C7_post_status_mapping (mkCumulocityRestApi "" "" "" "" none none)
      "/r" (Json.obj []) rfl none none ⟨201, ""⟩).2.2.2.1 (Or.inr rfl)).trans (by rfl)

/-- C8: a success status with an empty body returns the empty mapping
rather than failing — for GET and PUT on 200 and for POST on 200 or
201, an empty `r.content` yields `Ok` with the empty dict. -/
theorem claim_C8_empty_body_success (self : CumulocityRestApi) (resource : String)
    (params : Option (List (String × String))) (accept content_type : Option String)
    (ordered : Bool) (json : Json) (hobj : json.isObj = true) (r : Response)
    (hc : r.content = "") :
    (r.status_code = 200 →
      (self.get resource params accept ordered r).resultOf =
        some (Except.ok (Json.obj []))) ∧
    (r.status_code = 200 ∨ r.status_code = 201 →
      (self.post resource json accept content_type r).resultOf =
        some (Except.ok (Json.obj []))) ∧
    (r.status_code = 200 →
      (self.put resource json accept content_type r).resultOf =
        some (Except.ok (Json.obj []))) := by
  have hbody : jsonOrEmptyBody r = Except.ok (Json.obj []) := by
    unfold jsonOrEmptyBody
    rw [if_neg (by simp [hc])]
  refine ⟨fun h200 => ?_, fun hs => ?_, fun h200 => ?_⟩
  · rw [get_resultOf, if_neg (by omega), if_neg (by omega), if_neg (by simp [h200]), hbody]
  · rw [post_resultOf self resource hobj, if_neg (by rcases hs with h | h <;> omega),
      if_neg (by rcases hs with h | h <;> simp [h]), hbody]
  · rw [put_resultOf self resource hobj, if_neg (by omega), if_neg (by omega),
      if_neg (by simp [h200]), hbody]

/-- Witness for C8: GET 200, POST 201 and PUT 200 with empty bodies
each return the empty mapping. -/
theorem claim_C8_empty_body_success_witness :
    ((mkCumulocityRestApi "" "" "" "" none none).get "/r" none none false
        ⟨200, ""⟩).resultOf = some (Except.ok (Json.obj [])) ∧
    ((mkCumulocityRestApi "" "" "" "" none none).post "/r" (Json.obj []) none none
        ⟨201, ""⟩).resultOf = some (Except.ok (Json.obj [])) ∧
    ((mkCumulocityRestApi "" "" "" "" none none).put "/r" (Json.obj []) none none
        ⟨200, ""⟩).resultOf = some (Except.ok (Json.obj [])) :=
  ⟨(claim_C8_empty_body_success (mkCumulocityRestApi "" "" "" "" none none) "/r"
      none none none false (Json.obj []) rfl ⟨200, ""⟩ rfl).1 rfl,
   (claim_C8_empty_body_success (mkCumulocityRestApi "" "" "" "" none none) "/r"
      none none none false (Json.obj []) rfl ⟨201, ""⟩ rfl).2.1 (Or.inr rfl),
   (claim_C8_empty_body_success (mkCumulocityRestApi "" "" "" "" none none) "/r"
      none none none false (Json.obj []) rfl ⟨200, ""⟩ rfl).2.2 rfl⟩

/-! ## Which headers the verbs really send -/

/-- Look one key up in the headers of the request an outcome sent. -/
def Outcome.reqHeaderGet {α : Type} (o : Outcome α) (k : String) : Option String :=
  match o with
  | Outcome.preError _ => none
  | Outcome.sent req _ => dictGet req.headers k

theorem mk_session_headers (b t u p : String) (tfa akey : Option String)
    (hak : optTruthy akey = true) :
    (mkCumulocityRestApi b t u p tfa akey).session_headers =
      [("Accept", "application/json"),
       ("X-Cumulocity-Application-Key", akey.getD "")] := by
  unfold mkCumulocityRestApi
  simp [hak, dictUpdate, dictSet]

theorem mk_default_headers (b t u p : String) (tfa akey : Option String) :
    (mkCumulocityRestApi b t u p tfa akey).default_headers =
      (if optTruthy tfa then [("tfatoken", tfa.getD "")] else []) ++
      (if optTruthy akey then
        [("X-Cumulocity-Application-Key", akey.getD "")] else []) := by
  unfold mkCumulocityRestApi
  by_cases h1 : optTruthy tfa = true <;> by_cases h2 : optTruthy akey = true <;>
    simp [h1, h2, dictSet]

theorem get_reqHeaders (self : CumulocityRestApi) (resource : String)
    (params : Option (List (String × String))) (accept : Option String)
    (ordered : Bool) (r : Response) :
    (self.get resource params accept ordered r).reqHeaders =
      some (mergeSessionHeaders self
        (if optTruthy accept then some [("Accept", accept.getD "")] else none)) := by
  unfold CumulocityRestApi.get
  rw [prepare_headers_accept]
  rfl

theorem post_reqHeaders (self : CumulocityRestApi) (resource : String)
    {json : Json} (hobj : json.isObj = true) (accept content_type : Option String)
    (r : Response) :
    (self.post resource json accept content_type r).reqHeaders =
      some (mergeSessionHeaders self
        (if optTruthy accept || optTruthy content_type then
          some ((if optTruthy accept then [("Accept", accept.getD "")] else []) ++
            (if optTruthy content_type then
              [("Content-Type", content_type.getD "")] else []))
          else none)) := by
  unfold CumulocityRestApi.post
  rw [if_neg (by simp [hobj]), prepare_headers_accept_ct]
  rfl

theorem put_reqHeaders (self : CumulocityRestApi) (resource : String)
    {json : Json} (hobj : json.isObj = true) (accept content_type : Option String)
    (r : Response) :
    (self.put resource json accept content_type r).reqHeaders =
      some (mergeSessionHeaders self
        (if optTruthy accept || optTruthy content_type then
          some ((if optTruthy accept then [("Accept", accept.getD "")] else []) ++
            (if optTruthy content_type then
              [("Content-Type", content_type.getD "")] else []))
          else none)) := by
  unfold CumulocityRestApi.put
  rw [if_neg (by simp [hobj]), prepare_headers_accept_ct]
  rfl

theorem delete_reqHeaders (self : CumulocityRestApi) (resource : String) (r : Response) :
    (self.delete resource r).reqHeaders = some self.session_headers := rfl


theorem put_file_reqHeaders (self : CumulocityRestApi) (resource : String)
    (file : String) (media_type : String) (r : Response) :
    (self.put_file resource file media_type r).reqHeaders =
      some (mergeSessionHeaders self
        (some (dictUpdate [("Content-Type", media_type)] self.default_headers))) := rfl

/-- C2 fails on the code: an instance configured with both a two-factor
token and an application key sends a GET whose headers are exactly the
session's — `Accept` plus the application key — and do **not** include
the configured `tfatoken` default header. -/
theorem claim_C2_counterexample :
    ((mkCumulocityRestApi "http://base.com" "t" "u" "p" (some "T") (some "K")).get
        "/r" none none false ⟨200, ""⟩).reqHeaders =
      some [("Accept", "application/json"),
        ("X-Cumulocity-Application-Key", "K")] ∧
    ((mkCumulocityRestApi "http://base.com" "t" "u" "p" (some "T") (some "K")).get
        "/r" none none false ⟨200, ""⟩).reqHeaderGet "tfatoken" = none := by
  decide

/-- C2 as the code has it: with an application key configured, every
request a verb operation sends carries the
`X-Cumulocity-Application-Key` header, and per-call explicit headers
take precedence (`accept` overrides `Accept`, `content_type` sets
`Content-Type`, `put_file`'s media type sets `Content-Type`); but the
`tfatoken` default header is sent only by `put_file` (which overlays
the instance default headers explicitly) — `get`, `post`, `put` and
`delete` send the session's headers, which never include the
two-factor token, and `post_file` sends no request at all: it raises
`NameError` (`Binary` is undefined in the module) before building
one. -/
theorem claim_C2_amended_headers (b t u p : String) (tfa akey : Option String)
    (hak : optTruthy akey = true) (resource : String)
    (params : Option (List (String × String))) (accept content_type : Option String)
    (ordered : Bool) (json : Json) (hobj : json.isObj = true) (file : String)
    (fsz : Nat) (meta : Json) (media_type : String) (r : Response) :
    (∃ hs, ((mkCumulocityRestApi b t u p tfa akey).get resource params accept
        ordered r).reqHeaders = some hs ∧
      dictGet hs "X-Cumulocity-Application-Key" = some (akey.getD "") ∧
      dictGet hs "tfatoken" = none ∧
      (optTruthy accept = true → dictGet hs "Accept" = some (accept.getD ""))) ∧
    (∃ hs, ((mkCumulocityRestApi b t u p tfa akey).post resource json accept
        content_type r).reqHeaders = some hs ∧
      dictGet hs "X-Cumulocity-Application-Key" = some (akey.getD "") ∧
      dictGet hs "tfatoken" = none ∧
      (optTruthy accept = true → dictGet hs "Accept" = some (accept.getD "")) ∧
      (optTruthy content_type = true →
        dictGet hs "Content-Type" = some (content_type.getD ""))) ∧
    (∃ hs, ((mkCumulocityRestApi b t u p tfa akey).put resource json accept
        content_type r).reqHeaders = some hs ∧
      dictGet hs "X-Cumulocity-Application-Key" = some (akey.getD "") ∧
      dictGet hs "tfatoken" = none ∧
      (optTruthy accept = true → dictGet hs "Accept" = some (accept.getD "")) ∧
      (optTruthy content_type = true →
        dictGet hs "Content-Type" = some (content_type.getD ""))) ∧
    (∃ hs, ((mkCumulocityRestApi b t u p tfa akey).delete resource r).reqHeaders =
        some hs ∧
      dictGet hs "X-Cumulocity-Application-Key" = some (akey.getD "") ∧
      dictGet hs "tfatoken" = none) ∧
    ((mkCumulocityRestApi b t u p tfa akey).post_file resource (some file)
        fsz meta r =
      Outcome.preError (PyError.nameError "name 'Binary' is not defined")) ∧
    (∃ hs, ((mkCumulocityRestApi b t u p tfa akey).put_file resource file
        media_type r).reqHeaders = some hs ∧
      dictGet hs "X-Cumulocity-Application-Key" = some (akey.getD "") ∧
      (optTruthy tfa = true → dictGet hs "tfatoken" = some (tfa.getD "")) ∧
      dictGet hs "Content-Type" = some media_type) := by
  have hsess := mk_session_headers b t u p tfa akey hak
  have hdef := mk_default_headers b t u p tfa akey
  refine ⟨⟨_, get_reqHeaders _ _ _ _ _ _, ?_, ?_, ?_⟩,
    ⟨_, post_reqHeaders _ _ hobj _ _ _, ?_, ?_, ?_, ?_⟩,
    ⟨_, put_reqHeaders _ _ hobj _ _ _, ?_, ?_, ?_, ?_⟩,
    ⟨_, delete_reqHeaders _ _ _, ?_, ?_⟩, rfl,
    ⟨_, put_file_reqHeaders _ _ _ _ _, ?_, ?_, ?_⟩⟩ <;>
  · first
    | (intro h
       by_cases h1 : optTruthy accept = true <;>
         by_cases h2 : optTruthy content_type = true <;>
         by_cases h3 : optTruthy tfa = true <;>
         simp_all [mergeSessionHeaders, dictUpdate, dictSet, dictGet])
    | (by_cases h1 : optTruthy accept = true <;>
         by_cases h2 : optTruthy content_type = true <;>
         by_cases h3 : optTruthy tfa = true <;>
         simp_all [mergeSessionHeaders, dictUpdate, dictSet, dictGet])

/-- Witness for the amended C2: a concrete instance with a two-factor
token `T` and application key `K` sends a GET whose headers carry the
application key and the overriding `Accept`, and no `tfatoken`. -/
theorem claim_C2_amended_headers_witness :
    ∃ hs, ((mkCumulocityRestApi "" "" "" "" (some "T") (some "K")).get "/r" none
        (some "custom/accept") false ⟨200, ""⟩).reqHeaders = some hs ∧
      dictGet hs "X-Cumulocity-Application-Key" = some "K" ∧
      dictGet hs "tfatoken" = none ∧
      (optTruthy (some "custom/accept") = true →
        dictGet hs "Accept" = some "custom/accept") :=
  (claim_C2_amended_headers "" "" "" "" (some "T") (some "K") (by decide) "/r" none
    (some "custom/accept") (some "cc") false (Json.obj []) rfl "f" 0 (Json.obj [])
    "text/plain" ⟨200, ""⟩).1

/-- Top-level key order of a JSON document. -/
def Json.keys : Json → List String
  | Json.obj kvs => kvs.map Prod.fst
  | _ => []

/-- C9: a GET with `ordered=true`, status 200 and a non-empty JSON body
returns exactly the value the wire parser produces — whose object
members are in wire order, since the parser (like
`object_pairs_hook=OrderedDict`) appends members as they occur — and on
the body used by the repository's own ordered-response test the parsed
top-level key order is exactly `list, x, m, c`. -/
theorem claim_C9_get_ordered (self : CumulocityRestApi) (resource : String)
    (params : Option (List (String × String))) (accept : Option String)
    (r : Response) (v : Json) (h200 : r.status_code = 200)
    (hne : r.content ≠ "") (hp : JsonWire.parseJson r.content = some v) :
    (self.get resource params accept true r).resultOf = some (Except.ok v) ∧
    JsonWire.parseJson
        "\x7b\"list\": [1, 2, 3, 4, 5], \"x\": \"xxx\", \"m\": \"mmm\", \"c\": \"ccc\"\x7d" =
      some (Json.obj
        [("list", Json.arr [Json.num 1, Json.num 2, Json.num 3, Json.num 4, Json.num 5]),
         ("x", Json.str "xxx"), ("m", Json.str "mmm"), ("c", Json.str "ccc")]) ∧
    (Json.obj
        [("list", Json.arr [Json.num 1, Json.num 2, Json.num 3, Json.num 4, Json.num 5]),
         ("x", Json.str "xxx"), ("m", Json.str "mmm"), ("c", Json.str "ccc")]).keys =
      ["list", "x", "m", "c"] := by
  refine ⟨?_, by rfl, rfl⟩
  rw [get_resultOf, if_neg (by omega), if_neg (by omega), if_neg (by simp [h200])]
  simp [jsonOrEmptyBody, hne, hp]

/-- Witness for C9: the ordered-response test's exact body round-trips
through GET into the ordered mapping. -/
theorem claim_C9_get_ordered_witness :
    ((mkCumulocityRestApi "" "" "" "" none none).get "any" none none true
        ⟨200, "\x7b\"list\": [1, 2, 3, 4, 5], \"x\": \"xxx\", \"m\": \"mmm\", \"c\": \"ccc\"\x7d"⟩).resultOf =
      some (Except.ok (Json.obj
        [("list", Json.arr [Json.num 1, Json.num 2, Json.num 3, Json.num 4, Json.num 5]),
         ("x", Json.str "xxx"), ("m", Json.str "mmm"), ("c", Json.str "ccc")])) :=
  (claim_C9_get_ordered (mkCumulocityRestApi "" "" "" "" none none) "any" none none
    ⟨200, "\x7b\"list\": [1, 2, 3, 4, 5], \"x\": \"xxx\", \"m\": \"mmm\", \"c\": \"ccc\"\x7d"⟩
    (Json.obj
      [("list", Json.arr [Json.num 1, Json.num 2, Json.num 3, Json.num 4, Json.num 5]),
       ("x", Json.str "xxx"), ("m", Json.str "mmm"), ("c", Json.str "ccc")])
    rfl (by decide) (by rfl)).1

/-! ## Round trip of the `post_file` metadata expression

`post_file` never reaches its payload construction (the `Binary`
reference above fails first), but the serialization expression on its
dead path, `str(meta).replace`, is analysed here on its own: on the
safe fragment below it does invert through `json.loads`, and outside
that fragment it does not produce JSON at all. -/

namespace JsonWire

/-- Characters whose Python repr and JSON reading coincide trivially: no
quotes of either kind, no backslash, no control characters. -/
def safeChar (c : Char) : Bool :=
  c != '\'' && c != '"' && c != '\\' && 32 ≤ c.toNat

mutual

/-- Descriptor mappings on which `str(...).replace("'", '"')` produces
valid JSON: integers, strings of safe characters, and arrays/objects
thereof.  Booleans and `None` are excluded (Python renders them `True`,
`False`, `None`, which JSON does not read). -/
def safeJsonB : Json → Bool
  | Json.null => false
  | Json.bool _ => false
  | Json.num _ => true
  | Json.str s => s.data.all safeChar
  | Json.arr xs => safeListB xs
  | Json.obj kvs => safeMembersB kvs

/-- `safeJsonB` over the items of an array. -/
def safeListB : List Json → Bool
  | [] => true
  | v :: vs => safeJsonB v && safeListB vs

/-- `safeJsonB` over the members of an object, keys included. -/
def safeMembersB : List (String × Json) → Bool
  | [] => true
  | (k, v) :: rest => k.data.all safeChar && safeJsonB v && safeMembersB rest

end

/-- Input whose first character, if any, is not a digit: a decimal
number parse consumes exactly the printed digits before such a rest. -/
def noDigitHead : List Char → Bool
  | [] => true
  | c :: _ => !isDigitCh c

theorem natDigitsAux_acc (fuel : Nat) : ∀ (n : Nat) (acc : List Char),
    natDigitsAux fuel n acc = natDigitsAux fuel n [] ++ acc := by
  induction fuel with
  | zero => intro n acc; simp [natDigitsAux]
  | succ f ih =>
    intro n acc
    unfold natDigitsAux
    by_cases h : n < 10
    · simp [h]
    · rw [if_neg h, if_neg h, ih (n / 10) (digitChar (n % 10) :: acc),
        ih (n / 10) [digitChar (n % 10)]]
      simp

theorem natDigitsAux_extra : ∀ (n f1 f2 : Nat) (acc : List Char), n < f1 → n < f2 →
    natDigitsAux f1 n acc = natDigitsAux f2 n acc := by
  intro n
  induction n using Nat.strongRecOn with
  | _ n ih =>
    intro f1 f2 acc h1 h2
    cases f1 with
    | zero => omega
    | succ g1 =>
      cases f2 with
      | zero => omega
      | succ g2 =>
        unfold natDigitsAux
        by_cases h : n < 10
        · simp [h]
        · rw [if_neg h, if_neg h]
          exact ih (n / 10) (by omega) g1 g2 _ (by omega) (by omega)

theorem natDecimal_small {n : Nat} (h : n < 10) : natDecimal n = [digitChar n] := by
  unfold natDecimal natDigitsAux
  simp [h]

theorem natDecimal_step {n : Nat} (h : 10 ≤ n) :
    natDecimal n = natDecimal (n / 10) ++ [digitChar (n % 10)] := by
  have hu : natDecimal n =
      if n < 10 then [digitChar n]
      else natDigitsAux n (n / 10) [digitChar (n % 10)] := rfl
  rw [hu, if_neg (by omega), natDigitsAux_acc,
    natDigitsAux_extra (n / 10) n (n / 10 + 1) [] (by omega) (by omega)]
  rfl

theorem digitChar_isDigit {n : Nat} (h : n < 10) : isDigitCh (digitChar n) = true := by
  interval_cases n <;> decide

theorem digitVal_digitChar {n : Nat} (h : n < 10) : digitVal (digitChar n) = n := by
  interval_cases n <;> decide

theorem natDecimal_digits (n : Nat) : ∀ c ∈ natDecimal n, isDigitCh c = true := by
  induction n using Nat.strongRecOn with
  | _ n ih =>
    by_cases h : n < 10
    · rw [natDecimal_small h]
      intro c hc
      simp only [List.mem_singleton] at hc
      subst hc
      exact digitChar_isDigit h
    · rw [natDecimal_step (by omega)]
      intro c hc
      rcases List.mem_append.mp hc with h1 | h2
      · exact ih (n / 10) (by omega) c h1
      · simp only [List.mem_singleton] at h2
        subst h2
        exact digitChar_isDigit (by omega)

theorem natDecimal_ne_nil (n : Nat) : natDecimal n ≠ [] := by
  by_cases h : n < 10
  · rw [natDecimal_small h]
    simp
  · rw [natDecimal_step (by omega)]
    simp

theorem decFold_append (ds : List Char) (d : Char) :
    decFold (ds ++ [d]) = 10 * decFold ds + digitVal d := by
  unfold decFold
  rw [List.foldl_append]
  simp [List.foldl]
  ring

theorem decFold_natDecimal (n : Nat) : decFold (natDecimal n) = n := by
  induction n using Nat.strongRecOn with
  | _ n ih =>
    by_cases h : n < 10
    · rw [natDecimal_small h]
      simp [decFold, List.foldl, digitVal_digitChar h]
    · rw [natDecimal_step (by omega), decFold_append, ih (n / 10) (by omega),
        digitVal_digitChar (Nat.mod_lt n (by omega))]
      omega

theorem takeWhile_digits_append {ds rest : List Char}
    (hds : ∀ c ∈ ds, isDigitCh c = true) (hrest : noDigitHead rest = true) :
    (ds ++ rest).takeWhile isDigitCh = ds ∧ (ds ++ rest).dropWhile isDigitCh = rest := by
  induction ds with
  | nil =>
    cases rest with
    | nil => simp
    | cons c cs =>
      simp only [noDigitHead, Bool.not_eq_true'] at hrest
      simp [List.takeWhile_cons, List.dropWhile_cons, hrest]
  | cons d ds ih =>
    have hd := hds d (by simp)
    obtain ⟨ht, hw⟩ := ih (fun c hc => hds c (by simp [hc]))
    simp [List.takeWhile_cons, List.dropWhile_cons, hd, ht, hw]

theorem parseNat_natDecimal {n : Nat} {rest : List Char}
    (hrest : noDigitHead rest = true) :
    parseNat (natDecimal n ++ rest) = some (n, rest) := by
  unfold parseNat
  obtain ⟨ht, hw⟩ := takeWhile_digits_append (natDecimal_digits n) hrest
  rw [ht, hw]
  rw [if_neg (by simp [List.isEmpty_iff, natDecimal_ne_nil n]), decFold_natDecimal]

theorem parseNumber_intDecimal {n : Int} {rest : List Char}
    (hrest : noDigitHead rest = true) :
    parseNumber (intDecimal n ++ rest) = some (n, rest) := by
  cases n with
  | ofNat m =>
    show parseNumber (natDecimal m ++ rest) = some (Int.ofNat m, rest)
    obtain ⟨d, ds, hds⟩ : ∃ d ds, natDecimal m = d :: ds := by
      cases hnd : natDecimal m with
      | nil => exact absurd hnd (natDecimal_ne_nil m)
      | cons d ds => exact ⟨d, ds, rfl⟩
    have hddig : isDigitCh d = true := natDecimal_digits m d (by rw [hds]; simp)
    rw [hds, List.cons_append]
    unfold parseNumber
    split
    · next cs2 heq =>
      rw [List.cons.injEq] at heq
      rw [heq.1] at hddig
      exact absurd hddig (by decide)
    · rw [← List.cons_append, ← hds, parseNat_natDecimal hrest]
      rfl
  | negSucc m =>
    show Option.map (fun p => (-(p.1 : Int), p.2))
        (parseNat (natDecimal (m + 1) ++ rest)) = some (Int.negSucc m, rest)
    rw [parseNat_natDecimal hrest]
    simp [Int.negSucc_eq]

theorem replaceQuotes_id {cs : List Char} (h : ∀ c ∈ cs, c ≠ '\'') :
    replaceQuotes cs = cs := by
  induction cs with
  | nil => rfl
  | cons c cs ih =>
    unfold replaceQuotes
    rw [List.map_cons]
    have : (if c == '\'' then '"' else c) = c := by
      rw [if_neg (by simpa using h c (by simp))]
    rw [this]
    have ih2 := ih (fun c hc => h c (by simp [hc]))
    unfold replaceQuotes at ih2
    rw [ih2]

theorem intDecimal_no_quote (n : Int) : ∀ c ∈ intDecimal n, c ≠ '\'' := by
  cases n with
  | ofNat m =>
    intro c hc
    have := natDecimal_digits m c hc
    intro he
    subst he
    exact absurd this (by decide)
  | negSucc m =>
    intro c hc
    rcases List.mem_cons.mp hc with rfl | hc2
    · decide
    · have := natDecimal_digits (m + 1) c hc2
      intro he
      subst he
      exact absurd this (by decide)

theorem sent_num (n : Int) : objectPartChars (Json.num n) = intDecimal n := by
  unfold objectPartChars pyReprChars
  exact replaceQuotes_id (intDecimal_no_quote n)

theorem safeChar_props {c : Char} (h : safeChar c = true) :
    c ≠ '\'' ∧ c ≠ '"' ∧ c ≠ '\\' ∧ 32 ≤ c.toNat := by
  simp only [safeChar, Bool.and_eq_true, bne_iff_ne, decide_eq_true_eq] at h
  exact ⟨h.1.1.1, h.1.1.2, h.1.2, h.2⟩

theorem parseStringRest_safe {cs : List Char} (rest : List Char)
    (h : ∀ c ∈ cs, safeChar c = true) :
    parseStringRest (cs ++ '"' :: rest) = some (cs, rest) := by
  induction cs with
  | nil => rfl
  | cons c cs ih =>
    obtain ⟨h1, h2, h3, h4⟩ := safeChar_props (h c (by simp))
    rw [List.cons_append]
    unfold parseStringRest
    split
    · next heq => exact absurd heq.symm (by simp)
    · next heq =>
      rw [List.cons.injEq] at heq
      exact absurd heq.1 h2
    · next heq =>
      rw [List.cons.injEq] at heq
      exact absurd heq.1 h3
    · next c2 cs2 hq hb heq =>
      rw [List.cons.injEq] at heq
      obtain ⟨rfl, rfl⟩ := heq
      rw [if_neg (by omega), ih (fun x hx => h x (by simp [hx]))]
      rfl

theorem flatten_pyEsc_safe {cs : List Char} (h : ∀ c ∈ cs, safeChar c = true) :
    (cs.map (pyEscChar '\'')).flatten = cs := by
  induction cs with
  | nil => rfl
  | cons c cs ih =>
    obtain ⟨h1, h2, h3, h4⟩ := safeChar_props (h c (by simp))
    rw [List.map_cons, List.flatten_cons, ih (fun x hx => h x (by simp [hx]))]
    have hesc : pyEscChar '\'' c = [c] := by
      unfold pyEscChar
      rw [if_neg (by simpa using h3), if_neg (by simpa using h1),
        if_neg (by simp; intro he; subst he; simp at h4),
        if_neg (by simp; intro he; subst he; simp at h4),
        if_neg (by simp; intro he; subst he; simp at h4)]
    rw [hesc]
    rfl

theorem contains_eq_false_of {a : Char} {cs : List Char} (h : ∀ c ∈ cs, c ≠ a) :
    cs.contains a = false := by
  induction cs with
  | nil => rfl
  | cons c cs ih =>
    have hca := h c (by simp)
    have ih2 := ih (fun x hx => h x (by simp [hx]))
    simp only [List.contains_cons, Bool.or_eq_false_iff, beq_eq_false_iff_ne]
    exact ⟨fun he => hca he.symm, by simpa [List.contains] using ih2⟩

theorem reprStr_safe {s : String} (h : s.data.all safeChar = true) :
    replaceQuotes (reprStrChars s) = '"' :: s.data ++ ['"'] := by
  have hall : ∀ c ∈ s.data, safeChar c = true := by
    intro c hc
    exact List.all_eq_true.mp h c hc
  have hq : s.data.contains '\'' = false :=
    contains_eq_false_of (fun c hc => (safeChar_props (hall c hc)).1)
  unfold reprStrChars
  rw [hq]
  simp only [Bool.false_and, Bool.and_eq_true]
  rw [if_neg (by simp)]
  rw [flatten_pyEsc_safe hall]
  unfold replaceQuotes
  rw [List.map_append, List.map_cons]
  have hmid := replaceQuotes_id (fun c hc => (safeChar_props (hall c hc)).1)
  unfold replaceQuotes at hmid
  rw [hmid]
  rfl

theorem sent_str {s : String} (h : s.data.all safeChar = true) :
    objectPartChars (Json.str s) = '"' :: s.data ++ ['"'] := by
  unfold objectPartChars pyReprChars
  exact reprStr_safe h

theorem sent_arr (xs : List Json) :
    objectPartChars (Json.arr xs) = '[' :: replaceQuotes (pyReprList xs) ++ [']'] := by
  unfold objectPartChars pyReprChars replaceQuotes
  simp

theorem sent_obj (kvs : List (String × Json)) :
    objectPartChars (Json.obj kvs) = '{' :: replaceQuotes (pyReprMembers kvs) ++ ['}'] := by
  unfold objectPartChars pyReprChars replaceQuotes
  simp

theorem sentList_one (v : Json) :
    replaceQuotes (pyReprList [v]) = objectPartChars v := rfl

theorem sentList_cons (v w : Json) (vs : List Json) :
    replaceQuotes (pyReprList (v :: w :: vs)) =
      objectPartChars v ++ ',' :: ' ' :: replaceQuotes (pyReprList (w :: vs)) := by
  show replaceQuotes (pyReprChars v ++ ',' :: ' ' :: pyReprList (w :: vs)) = _
  unfold replaceQuotes
  simp [objectPartChars, replaceQuotes]

theorem sentMembers_one (k : String) (v : Json) :
    replaceQuotes (pyReprMembers [(k, v)]) =
      replaceQuotes (reprStrChars k) ++ ':' :: ' ' :: objectPartChars v := by
  show replaceQuotes (reprStrChars k ++ ':' :: ' ' :: pyReprChars v) = _
  unfold replaceQuotes
  simp [objectPartChars, replaceQuotes]

theorem sentMembers_cons (k : String) (v : Json) (kv2 : String × Json)
    (rest : List (String × Json)) :
    replaceQuotes (pyReprMembers ((k, v) :: kv2 :: rest)) =
      replaceQuotes (reprStrChars k) ++ ':' :: ' ' :: objectPartChars v ++
        ',' :: ' ' :: replaceQuotes (pyReprMembers (kv2 :: rest)) := by
  show replaceQuotes (reprStrChars k ++ ':' :: ' ' :: pyReprChars v ++
    ',' :: ' ' :: pyReprMembers (kv2 :: rest)) = _
  unfold replaceQuotes
  simp [objectPartChars, replaceQuotes]

theorem skipWs_not_ws {c : Char} (cs : List Char) (h : isWsCh c = false) :
    skipWs (c :: cs) = c :: cs := by
  unfold skipWs
  rw [h]
  simp

theorem parseVal_ws (f : Nat) (cs : List Char) :
    parseVal f (' ' :: cs) = parseVal f cs := by
  cases f with
  | zero => rfl
  | succ g => rfl

theorem parseItems_ws (f : Nat) (cs : List Char) :
    parseItems f (' ' :: cs) = parseItems f cs := by
  cases f with
  | zero => rfl
  | succ g =>
    show (parseVal g (' ' :: cs)).bind _ = (parseVal g cs).bind _
    rw [parseVal_ws]

theorem parseMembers_ws (f : Nat) (cs : List Char) :
    parseMembers f (' ' :: cs) = parseMembers f cs := by
  cases f with
  | zero => rfl
  | succ g => rfl

mutual

/-- A bound on the parser call depth needed for one value. -/
def szV : Json → Nat
  | Json.null => 1
  | Json.bool _ => 1
  | Json.num _ => 1
  | Json.str _ => 1
  | Json.arr xs => 1 + szL xs
  | Json.obj kvs => 1 + szM kvs

/-- Call-depth bound over array items. -/
def szL : List Json → Nat
  | [] => 0
  | v :: vs => 1 + szV v + szL vs

/-- Call-depth bound over object members. -/
def szM : List (String × Json) → Nat
  | [] => 0
  | (_, v) :: rest => 1 + szV v + szM rest

end

theorem szV_pos (v : Json) : 1 ≤ szV v := by
  cases v <;> simp [szV]

theorem intDecimal_ne_nil (n : Int) : intDecimal n ≠ [] := by
  cases n with
  | ofNat m => exact natDecimal_ne_nil m
  | negSucc m => simp [intDecimal]

/-- The first character of a printed value: never whitespace, never a
closing bracket or brace, and a digit or sign exactly for numbers. -/
theorem sent_head_good {v : Json} (hv : safeJsonB v = true) :
    ∃ c cs2, objectPartChars v = c :: cs2 ∧ isWsCh c = false ∧
      c ≠ ']' ∧ c ≠ '}' := by
  cases v with
  | null => simp [safeJsonB] at hv
  | bool b => simp [safeJsonB] at hv
  | num n =>
    rw [sent_num]
    cases n with
    | ofNat m =>
      obtain ⟨d, ds, hds⟩ : ∃ d ds, natDecimal m = d :: ds := by
        cases hnd : natDecimal m with
        | nil => exact absurd hnd (natDecimal_ne_nil m)
        | cons d ds => exact ⟨d, ds, rfl⟩
      have hd : isDigitCh d = true := natDecimal_digits m d (by rw [hds]; simp)
      refine ⟨d, ds, hds, ?_, ?_, ?_⟩
      · have h48 : 48 ≤ d.toNat ∧ d.toNat ≤ 57 := by
          simpa [isDigitCh] using hd
        simp only [isWsCh, Bool.or_eq_false_iff, beq_eq_false_iff_ne]
        refine ⟨⟨⟨?_, ?_⟩, ?_⟩, ?_⟩ <;>
        · intro he
          subst he
          exact absurd h48 (by decide)
      · intro he
        subst he
        exact absurd hd (by decide)
      · intro he
        subst he
        exact absurd hd (by decide)
    | negSucc m => exact ⟨'-', _, rfl, by decide, by decide, by decide⟩
  | str s =>
    rw [sent_str (by simpa [safeJsonB] using hv)]
    exact ⟨'"', _, rfl, by decide, by decide, by decide⟩
  | arr xs =>
    rw [sent_arr]
    exact ⟨'[', _, rfl, by decide, by decide, by decide⟩
  | obj kvs =>
    rw [sent_obj]
    exact ⟨'{', _, rfl, by decide, by decide, by decide⟩

theorem parseVal_str (f : Nat) {s : String} (h : s.data.all safeChar = true)
    (rest : List Char) :
    parseVal (f + 1) (objectPartChars (Json.str s) ++ rest) = some (Json.str s, rest) := by
  rw [sent_str h]
  have hsh : ('"' :: s.data ++ ['"']) ++ rest = '"' :: (s.data ++ '"' :: rest) := by
    simp
  rw [hsh]
  show (parseStringRest (s.data ++ '"' :: rest)).map
      (fun p => (Json.str (String.mk p.1), p.2)) = some (Json.str s, rest)
  rw [parseStringRest_safe rest (List.all_eq_true.mp h)]
  cases s
  rfl

theorem parseVal_num (f : Nat) (n : Int) (rest : List Char)
    (hrest : noDigitHead rest = true) :
    parseVal (f + 1) (objectPartChars (Json.num n) ++ rest) = some (Json.num n, rest) := by
  rw [sent_num]
  obtain ⟨d, ds, hds, hdm⟩ :
      ∃ d ds, intDecimal n = d :: ds ∧ (isDigitCh d = true ∨ d = '-') := by
    cases n with
    | ofNat m =>
      cases hnd : natDecimal m with
      | nil => exact absurd hnd (natDecimal_ne_nil m)
      | cons d ds =>
        exact ⟨d, ds, hnd, Or.inl (natDecimal_digits m d (by rw [hnd]; simp))⟩
    | negSucc m => exact ⟨'-', _, rfl, Or.inr rfl⟩
  have hprops : isWsCh d = false ∧ d ≠ 'n' ∧ d ≠ 't' ∧ d ≠ 'f' ∧ d ≠ '"' ∧
      d ≠ '[' ∧ d ≠ '{' := by
    rcases hdm with hd | rfl
    · have h48 : 48 ≤ d.toNat ∧ d.toNat ≤ 57 := by simpa [isDigitCh] using hd
      refine ⟨?_, ?_, ?_, ?_, ?_, ?_, ?_⟩
      · simp only [isWsCh, Bool.or_eq_false_iff, beq_eq_false_iff_ne]
        refine ⟨⟨⟨?_, ?_⟩, ?_⟩, ?_⟩ <;>
        · intro he
          subst he
          exact absurd h48 (by decide)
      all_goals
        intro he
        subst he
        exact absurd h48 (by decide)
    · exact ⟨by decide, by decide, by decide, by decide, by decide, by decide, by decide⟩
  obtain ⟨hws, hn, ht2, hf2, hq2, hlb, hlc⟩ := hprops
  rw [hds, List.cons_append]
  unfold parseVal
  rw [skipWs_not_ws _ hws]
  split
  · next heq =>
    rw [List.cons.injEq] at heq
    exact absurd heq.1 hn
  · next heq =>
    rw [List.cons.injEq] at heq
    exact absurd heq.1 ht2
  · next heq =>
    rw [List.cons.injEq] at heq
    exact absurd heq.1 hf2
  · next heq =>
    rw [List.cons.injEq] at heq
    exact absurd heq.1 hq2
  · next heq =>
    rw [List.cons.injEq] at heq
    exact absurd heq.1 hlb
  · next heq =>
    rw [List.cons.injEq] at heq
    exact absurd heq.1 hlc
  · rw [← List.cons_append, ← hds, parseNumber_intDecimal hrest]
    rfl

theorem parseVal_lbracket (f : Nat) (t : List Char) :
    parseVal (f + 1) ('[' :: t) =
      match skipWs t with
      | ']' :: r2 => some (Json.arr [], r2)
      | r2 => (parseItems f r2).map fun p => (Json.arr p.1, p.2) := rfl

theorem parseVal_lbrace (f : Nat) (t : List Char) :
    parseVal (f + 1) ('{' :: t) =
      match skipWs t with
      | '}' :: r2 => some (Json.obj [], r2)
      | r2 => (parseMembers f r2).map fun p => (Json.obj p.1, p.2) := rfl

theorem parseItems_entry (f : Nat) (cs : List Char) :
    parseItems (f + 1) cs =
      (parseVal f cs).bind fun p =>
        match skipWs p.2 with
        | ',' :: r => (parseItems f r).map fun q => (p.1 :: q.1, q.2)
        | ']' :: r => some ([p.1], r)
        | _ => none := rfl

theorem parseMembers_quote (f : Nat) (t : List Char) :
    parseMembers (f + 1) ('"' :: t) =
      (parseStringRest t).bind fun pk =>
        match skipWs pk.2 with
        | ':' :: r2 =>
          (parseVal f r2).bind fun pv =>
            match skipWs pv.2 with
            | ',' :: r3 =>
              (parseMembers f r3).map fun q => ((String.mk pk.1, pv.1) :: q.1, q.2)
            | '}' :: r3 => some ([(String.mk pk.1, pv.1)], r3)
            | _ => none
        | _ => none := rfl

/-- The round trip: on the safe fragment, parsing the `post_file`
metadata text recovers the descriptor's mapping exactly, for any fuel
at least the value's call-depth bound. -/
theorem parse_sent_round (fuel : Nat) :
    (∀ v rest, safeJsonB v = true → szV v ≤ fuel → noDigitHead rest = true →
      parseVal fuel (objectPartChars v ++ rest) = some (v, rest)) ∧
    (∀ vs rest, vs ≠ [] → safeListB vs = true → szL vs ≤ fuel →
      parseItems fuel (replaceQuotes (pyReprList vs) ++ ']' :: rest) = some (vs, rest)) ∧
    (∀ kvs rest, kvs ≠ [] → safeMembersB kvs = true → szM kvs ≤ fuel →
      parseMembers fuel (replaceQuotes (pyReprMembers kvs) ++ '}' :: rest) =
        some (kvs, rest)) := by
  induction fuel with
  | zero =>
    refine ⟨fun v rest hs hsz _ => absurd hsz (by have := szV_pos v; omega),
      fun vs rest hne hs hsz => ?_, fun kvs rest hne hs hsz => ?_⟩
    · cases vs with
      | nil => exact absurd rfl hne
      | cons v vs2 => simp [szL] at hsz
    · cases kvs with
      | nil => exact absurd rfl hne
      | cons kv rest2 =>
        obtain ⟨k, v⟩ := kv
        simp [szM] at hsz
  | succ f ih =>
    obtain ⟨ihV, ihL, ihM⟩ := ih
    refine ⟨fun v rest hs hsz hrest => ?_, fun vs rest hne hs hsz => ?_,
      fun kvs rest hne hs hsz => ?_⟩
    · cases v with
      | null => simp [safeJsonB] at hs
      | bool b => simp [safeJsonB] at hs
      | num n => exact parseVal_num f n rest hrest
      | str s => exact parseVal_str f (by simpa [safeJsonB] using hs) rest
      | arr xs =>
        cases xs with
        | nil =>
          have hsh : objectPartChars (Json.arr []) ++ rest = '[' :: ']' :: rest := rfl
          rw [hsh, parseVal_lbracket]
          rfl
        | cons v vs =>
          have hsl : safeListB (v :: vs) = true := by simpa [safeJsonB] using hs
          have hsv : safeJsonB v = true ∧ safeListB (v :: vs) = true := by
            refine ⟨?_, hsl⟩
            simp only [safeListB, Bool.and_eq_true] at hsl
            exact hsl.1
          have hsz2 : szL (v :: vs) ≤ f := by
            simp only [szV] at hsz
            omega
          have hsh : objectPartChars (Json.arr (v :: vs)) ++ rest =
              '[' :: (replaceQuotes (pyReprList (v :: vs)) ++ ']' :: rest) := by
            rw [sent_arr]
            simp
          rw [hsh, parseVal_lbracket]
          obtain ⟨c, cs2, hcv, hws, hnb, hnc⟩ := sent_head_good hsv.1
          obtain ⟨t2, ht2⟩ :
              ∃ t2, replaceQuotes (pyReprList (v :: vs)) ++ ']' :: rest = c :: t2 := by
            cases vs with
            | nil =>
              rw [sentList_one, hcv]
              exact ⟨_, rfl⟩
            | cons w ws =>
              rw [sentList_cons, hcv]
              exact ⟨_, rfl⟩
          rw [ht2, skipWs_not_ws _ hws]
          split
          · next heq =>
            rw [List.cons.injEq] at heq
            exact absurd heq.1 hnb
          · rw [← ht2, ihL (v :: vs) rest (by simp) hsv.2 hsz2]
            rfl
      | obj kvs =>
        cases kvs with
        | nil =>
          have hsh : objectPartChars (Json.obj []) ++ rest = '{' :: '}' :: rest := rfl
          rw [hsh, parseVal_lbrace]
          rfl
        | cons kv kvs2 =>
          obtain ⟨k, v⟩ := kv
          have hsm : safeMembersB ((k, v) :: kvs2) = true := by
            simpa [safeJsonB] using hs
          have hsk : k.data.all safeChar = true := by
            simp only [safeMembersB, Bool.and_eq_true] at hsm
            exact hsm.1.1
          have hsz2 : szM ((k, v) :: kvs2) ≤ f := by
            simp only [szV] at hsz
            omega
          have hsh : objectPartChars (Json.obj ((k, v) :: kvs2)) ++ rest =
              '{' :: (replaceQuotes (pyReprMembers ((k, v) :: kvs2)) ++ '}' :: rest) := by
            rw [sent_obj]
            simp
          rw [hsh, parseVal_lbrace]
          obtain ⟨t2, ht2⟩ :
              ∃ t2, replaceQuotes (pyReprMembers ((k, v) :: kvs2)) ++ '}' :: rest =
                '"' :: t2 := by
            cases kvs2 with
            | nil =>
              rw [sentMembers_one, reprStr_safe hsk]
              exact ⟨_, rfl⟩
            | cons kv2 rest2 =>
              rw [sentMembers_cons, reprStr_safe hsk]
              exact ⟨_, rfl⟩
          rw [ht2, skipWs_not_ws _ (by decide)]
          split
          · next heq =>
            rw [List.cons.injEq] at heq
            exact absurd heq.1 (by decide)
          · rw [← ht2, ihM ((k, v) :: kvs2) rest (by simp) hsm hsz2]
            rfl
    · cases vs with
      | nil => exact absurd rfl hne
      | cons v vs2 =>
        have hsv : safeJsonB v = true ∧ safeListB vs2 = true := by
          simpa [safeListB, Bool.and_eq_true] using hs
        have hszv : szV v ≤ f ∧ szL vs2 ≤ f := by
          simp only [szL] at hsz
          constructor <;> omega
        cases vs2 with
        | nil =>
          rw [sentList_one, parseItems_entry,
            ihV v (']' :: rest) hsv.1 hszv.1 (by rfl)]
          rfl
        | cons w ws =>
          have hsh : replaceQuotes (pyReprList (v :: w :: ws)) ++ ']' :: rest =
              objectPartChars v ++
                (',' :: ' ' :: (replaceQuotes (pyReprList (w :: ws)) ++ ']' :: rest)) := by
            rw [sentList_cons]
            simp
          rw [hsh, parseItems_entry,
            ihV v (',' :: ' ' :: (replaceQuotes (pyReprList (w :: ws)) ++ ']' :: rest))
              hsv.1 hszv.1 (by rfl)]
          show (parseItems f
              (' ' :: (replaceQuotes (pyReprList (w :: ws)) ++ ']' :: rest))).map
            (fun q => (v :: q.1, q.2)) = some (v :: w :: ws, rest)
          rw [parseItems_ws, ihL (w :: ws) rest (by simp) hsv.2 hszv.2]
          rfl
    · cases kvs with
      | nil => exact absurd rfl hne
      | cons kv kvs2 =>
        obtain ⟨k, v⟩ := kv
        have hsk : k.data.all safeChar = true ∧ safeJsonB v = true ∧
            safeMembersB kvs2 = true := by
          simpa [safeMembersB, Bool.and_eq_true, and_assoc] using hs
        have hszv : szV v ≤ f ∧ szM kvs2 ≤ f := by
          simp only [szM] at hsz
          constructor <;> omega
        obtain ⟨kd⟩ := k
        cases kvs2 with
        | nil =>
          have hsh : replaceQuotes (pyReprMembers [(String.mk kd, v)]) ++ '}' :: rest =
              '"' :: (kd ++ '"' :: (':' :: ' ' :: (objectPartChars v ++ '}' :: rest))) := by
            rw [sentMembers_one, reprStr_safe hsk.1]
            simp
          rw [hsh, parseMembers_quote, parseStringRest_safe _ (List.all_eq_true.mp hsk.1)]
          show (parseVal f (' ' :: (objectPartChars v ++ '}' :: rest))).bind _ =
            some ([(String.mk kd, v)], rest)
          rw [parseVal_ws, ihV v ('}' :: rest) hsk.2.1 hszv.1 (by rfl)]
          rfl
        | cons kv2 rest2 =>
          have hsh : replaceQuotes (pyReprMembers ((String.mk kd, v) :: kv2 :: rest2)) ++
                '}' :: rest =
              '"' :: (kd ++ '"' :: (':' :: ' ' :: (objectPartChars v ++
                ',' :: ' ' :: (replaceQuotes (pyReprMembers (kv2 :: rest2)) ++
                  '}' :: rest)))) := by
            rw [sentMembers_cons, reprStr_safe hsk.1]
            simp
          rw [hsh, parseMembers_quote, parseStringRest_safe _ (List.all_eq_true.mp hsk.1)]
          show (parseVal f (' ' :: (objectPartChars v ++
              ',' :: ' ' :: (replaceQuotes (pyReprMembers (kv2 :: rest2)) ++
                '}' :: rest)))).bind _ = some ((String.mk kd, v) :: kv2 :: rest2, rest)
          rw [parseVal_ws, ihV v
            (',' :: ' ' :: (replaceQuotes (pyReprMembers (kv2 :: rest2)) ++ '}' :: rest))
            hsk.2.1 hszv.1 (by rfl)]
          show (parseMembers f
              (' ' :: (replaceQuotes (pyReprMembers (kv2 :: rest2)) ++ '}' :: rest))).map
            (fun q => ((String.mk kd, v) :: q.1, q.2)) =
            some ((String.mk kd, v) :: kv2 :: rest2, rest)
          rw [parseMembers_ws, ihM (kv2 :: rest2) rest (by simp) hsk.2.2 hszv.2]
          rfl

mutual

theorem szV_le : ∀ v : Json, szV v ≤ 2 * (pyReprChars v).length
  | Json.null => by simp [szV, pyReprChars]
  | Json.bool b => by cases b <;> simp [szV, pyReprChars]
  | Json.num n => by
      have hne := intDecimal_ne_nil n
      have hlen : 1 ≤ (intDecimal n).length := by
        cases h : intDecimal n with
        | nil => exact absurd h hne
        | cons c cs => simp
      simp only [szV, pyReprChars]
      omega
  | Json.str s => by
      simp only [szV, pyReprChars, reprStrChars]
      simp
      omega
  | Json.arr xs => by
      have h := szL_le xs
      simp only [szV, pyReprChars, List.length_append, List.length_cons]
      omega
  | Json.obj kvs => by
      have h := szM_le kvs
      simp only [szV, pyReprChars, List.length_append, List.length_cons]
      omega

theorem szL_le : ∀ vs : List Json, szL vs ≤ 2 * (pyReprList vs).length + 1
  | [] => by simp [szL]
  | v :: vs => by
      have h1 := szV_le v
      cases vs with
      | nil =>
        have hsz : szL [v] = 1 + szV v + 0 := rfl
        have hlen : (pyReprList [v]).length = (pyReprChars v).length := rfl
        rw [hsz, hlen]
        omega
      | cons w ws =>
        have h2 := szL_le (w :: ws)
        have hsz : szL (v :: w :: ws) = 1 + szV v + szL (w :: ws) := rfl
        have hlen : (pyReprList (v :: w :: ws)).length =
            (pyReprChars v).length + 2 + (pyReprList (w :: ws)).length := by
          show (pyReprChars v ++ ',' :: ' ' :: pyReprList (w :: ws)).length = _
          simp
          omega
        rw [hsz, hlen]
        omega

theorem szM_le : ∀ kvs : List (String × Json), szM kvs ≤ 2 * (pyReprMembers kvs).length + 1
  | [] => by simp [szM]
  | (k, v) :: rest => by
      have h1 := szV_le v
      cases rest with
      | nil =>
        have hsz : szM [(k, v)] = 1 + szV v + 0 := rfl
        have hlen : (pyReprMembers [(k, v)]).length =
            (reprStrChars k).length + 2 + (pyReprChars v).length := by
          show (reprStrChars k ++ ':' :: ' ' :: pyReprChars v).length = _
          simp
          omega
        rw [hsz, hlen]
        omega
      | cons kv2 rs =>
        have h2 := szM_le (kv2 :: rs)
        have hsz : szM ((k, v) :: kv2 :: rs) = 1 + szV v + szM (kv2 :: rs) := rfl
        have hlen : (pyReprMembers ((k, v) :: kv2 :: rs)).length =
            (reprStrChars k).length + 2 + (pyReprChars v).length + 2 +
              (pyReprMembers (kv2 :: rs)).length := by
          show (reprStrChars k ++ ':' :: ' ' :: pyReprChars v ++
            ',' :: ' ' :: pyReprMembers (kv2 :: rs)).length = _
          simp
          omega
        rw [hsz, hlen]
        omega

end

/-- On the safe fragment, `json.loads` inverts the `object` part
construction of `post_file`. -/
theorem parseJson_objectPart {meta : Json} (h : safeJsonB meta = true) :
    parseJson (objectPartStr meta) = some meta := by
  unfold parseJson objectPartStr
  have hdata : (String.mk (objectPartChars meta)).data = objectPartChars meta := rfl
  rw [hdata]
  have hlen : (objectPartChars meta).length = (pyReprChars meta).length := by
    unfold objectPartChars replaceQuotes
    simp
  have hfuel : szV meta ≤ 2 * (objectPartChars meta).length + 2 := by
    have := szV_le meta
    omega
  have hmain := (parse_sent_round (2 * (objectPartChars meta).length + 2)).1 meta []
    h hfuel rfl
  rw [List.append_nil] at hmain
  rw [hmain]
  rfl

end JsonWire

/-- C3 (the claim is right, the code is wrong): `post_file` can never
produce the multipart payload the claim describes.  Its first
statement references `Binary`, a name `_base_api.py` never imports or
defines, so every call raises `NameError: name 'Binary' is not
defined` before any payload exists — the model returns that pre-send
error for all arguments.  Moreover the serialization expression in the
unreachable body, `str(meta).replace("'", '"')`, is not JSON
serialization either: on the mapping holding a boolean it renders the
text `\x7b"data": True\x7d`, which `json.loads` rejects, so even with
the missing import repaired the `object` part would not parse back to
every descriptor's mapping. -/
theorem claim_C3_post_file_name_error (self : CumulocityRestApi) (resource : String)
    (file : Option String) (fsz : Nat) (meta : Json) (r : Response) :
    self.post_file resource file fsz meta r =
      Outcome.preError (PyError.nameError "name 'Binary' is not defined") ∧
    JsonWire.objectPartStr (Json.obj [("data", Json.bool true)]) =
      "\x7b\"data\": True\x7d" ∧
    JsonWire.parseJson "\x7b\"data\": True\x7d" = none :=
  ⟨rfl, rfl, rfl⟩
